import Mathlib

/-! # LyraCharacter: acceleration codec, shared movement snapshot, team and lifecycle state

A shallow embedding of `Source/LyraGame/Character/LyraCharacter.{h,cpp}`.

* Floating point values of the acceleration codec are idealised as exact reals
  (the codec needs `sqrt`, `atan2`, `cos`, `sin`).
* Floating point values that are only copied and compared (snapshot fields)
  are idealised as rationals, so that the snapshot code stays executable.
* `uint8` / `int8` stores are integers reduced modulo `2^8`.
* A division is checked: it yields `none` when the divisor is zero.
-/

namespace Lyra

/-! ## Engine value types -/

/-- Engine template `UE::Math::TVector<T>` (`FVector` is `TVector<double>`). -/
structure TVector (T : Type) where
  X : T
  Y : T
  Z : T
deriving DecidableEq

/-- Engine template `UE::Math::TRotator<T>` (`FRotator`). -/
structure TRotator (T : Type) where
  Pitch : T
  Yaw : T
  Roll : T
deriving DecidableEq

/-- The `FVector` of the acceleration codec, over exact reals. -/
abbrev FVector := TVector ℝ

/-! ## Quantization codec (`PreReplication`, `OnRep_ReplicatedAcceleration`) -/

/-- Header struct `FLyraReplicatedAcceleration`: `uint8`, `uint8`, `int8`. -/
structure FLyraReplicatedAcceleration where
  AccelXYRadians : ℤ
  AccelXYMagnitude : ℤ
  AccelZ : ℤ
deriving DecidableEq

/-- The fields are within the range of their C++ types. -/
def FLyraReplicatedAcceleration.InRange (c : FLyraReplicatedAcceleration) : Prop :=
  (0 ≤ c.AccelXYRadians ∧ c.AccelXYRadians ≤ 255) ∧
  (0 ≤ c.AccelXYMagnitude ∧ c.AccelXYMagnitude ≤ 255) ∧
  (-128 ≤ c.AccelZ ∧ c.AccelZ ≤ 127)

/-- Engine constant `TWO_PI`. -/
noncomputable def TWO_PI : ℝ := 2 * Real.pi

/-- Engine `FMath::Atan2(Y, X)`: the angle of `(X, Y)` in `(-π, π]`, `0` at the origin. -/
noncomputable def Atan2 (Y X : ℝ) : ℝ := Complex.arg ⟨X, Y⟩

/-- Engine `FMath::CartesianToPolar(X, Y, OutRad, OutAng)`, returning `(OutRad, OutAng)`. -/
noncomputable def CartesianToPolar (X Y : ℝ) : ℝ × ℝ :=
  (Real.sqrt (X * X + Y * Y), Atan2 Y X)

/-- Engine `FMath::PolarToCartesian(Rad, Ang, OutX, OutY)`, returning `(OutX, OutY)`. -/
noncomputable def PolarToCartesian (Rad Ang : ℝ) : ℝ × ℝ :=
  (Rad * Real.cos Ang, Rad * Real.sin Ang)

/-- Engine `FMath::FloorToInt`. -/
noncomputable def FloorToInt (x : ℝ) : ℤ := ⌊x⌋

/-- Conversion of an integer to `uint8` on assignment. -/
def toUInt8 (z : ℤ) : ℤ := z % 256

/-- Conversion of an integer to `int8` on assignment (two's complement). -/
def toInt8 (z : ℤ) : ℤ := (z + 128) % 256 - 128

/-- Checked division: `none` when the divisor is zero. -/
noncomputable def fdiv (a b : ℝ) : Option ℝ :=
  if b = 0 then none else some (a / b)

/-- Line 168: `AccelXYRadians = FloorToInt((AccelXYRadians / TWO_PI) * 255.0)`. -/
noncomputable def packAccelXYRadians (CurrentAccel : FVector) : Option ℤ :=
  (fdiv (CartesianToPolar CurrentAccel.X CurrentAccel.Y).2 TWO_PI).map
    (fun q => toUInt8 (FloorToInt (q * 255)))

/-- Line 169: `AccelXYMagnitude = FloorToInt((AccelXYMagnitude / MaxAccel) * 255.0)`. -/
noncomputable def packAccelXYMagnitude (MaxAccel : ℝ) (CurrentAccel : FVector) : Option ℤ :=
  (fdiv (CartesianToPolar CurrentAccel.X CurrentAccel.Y).1 MaxAccel).map
    (fun q => toUInt8 (FloorToInt (q * 255)))

/-- Line 170: `AccelZ = FloorToInt((CurrentAccel.Z / MaxAccel) * 127.0)`. -/
noncomputable def packAccelZ (MaxAccel : ℝ) (CurrentAccel : FVector) : Option ℤ :=
  (fdiv CurrentAccel.Z MaxAccel).map (fun q => toInt8 (FloorToInt (q * 127)))

/-- The part of `UCharacterMovementComponent` read by the codec. -/
structure UCharacterMovementComponent where
  MaxAcceleration : ℝ
  CurrentAcceleration : FVector

/-- Body of the `if` of `ALyraCharacter::PreReplication` (lines 163-170). -/
noncomputable def compressAcceleration (MaxAccel : ℝ) (CurrentAccel : FVector) :
    Option FLyraReplicatedAcceleration := do
  let a ← packAccelXYRadians CurrentAccel
  let m ← packAccelXYMagnitude MaxAccel CurrentAccel
  let z ← packAccelZ MaxAccel CurrentAccel
  pure ⟨a, m, z⟩

/-- Source function `ALyraCharacter::PreReplication`: the new value of `ReplicatedAcceleration`;
`none` when a division by zero happens. Without a movement component the field is kept. -/
noncomputable def PreReplication (MovementComponent : Option UCharacterMovementComponent)
    (ReplicatedAcceleration : FLyraReplicatedAcceleration) :
    Option FLyraReplicatedAcceleration :=
  match MovementComponent with
  | none => some ReplicatedAcceleration
  | some mc => compressAcceleration mc.MaxAcceleration mc.CurrentAcceleration

/-- Body of the `if` of `ALyraCharacter::OnRep_ReplicatedAcceleration` (lines 518-524):
the vector passed to `SetReplicatedAcceleration`. -/
noncomputable def decompressAcceleration (MaxAccel : ℝ) (c : FLyraReplicatedAcceleration) :
    Option FVector := do
  let AccelXYMagnitude ← fdiv ((c.AccelXYMagnitude : ℝ) * MaxAccel) 255
  let AccelXYRadians ← fdiv ((c.AccelXYRadians : ℝ) * TWO_PI) 255
  let xy := PolarToCartesian AccelXYMagnitude AccelXYRadians
  let z ← fdiv ((c.AccelZ : ℝ) * MaxAccel) 127
  pure ⟨xy.1, xy.2, z⟩

/-- Source function `ALyraCharacter::OnRep_ReplicatedAcceleration`: the argument of
`SetReplicatedAcceleration`, `some none` when the movement component is absent
(no call), `none` when a division by zero happens. -/
noncomputable def OnRep_ReplicatedAcceleration (MovementComponent : Option UCharacterMovementComponent)
    (ReplicatedAcceleration : FLyraReplicatedAcceleration) : Option (Option FVector) :=
  match MovementComponent with
  | none => some none
  | some mc => (decompressAcceleration mc.MaxAcceleration ReplicatedAcceleration).map some

/-! ## Shared movement snapshot (`FSharedRepMovement`) -/

/-- Engine `ENetRole`. -/
inductive ENetRole where
  | ROLE_None
  | ROLE_SimulatedProxy
  | ROLE_AutonomousProxy
  | ROLE_Authority
deriving DecidableEq

/-- Engine `EVectorQuantization`. -/
inductive EVectorQuantization where
  | RoundWholeNumber
  | RoundOneDecimal
  | RoundTwoDecimals
deriving DecidableEq

/-- Engine `ENetworkSmoothingMode`. -/
inductive ENetworkSmoothingMode where
  | Disabled
  | Linear
  | Exponential
  | Replay
deriving DecidableEq

/-- The fields of the engine struct `FRepMovement` that this file reads or writes;
the other engine fields keep their defaults. -/
structure FRepMovement where
  Location : TVector ℚ
  Rotation : TRotator ℚ
  LinearVelocity : TVector ℚ
  LocationQuantizationLevel : EVectorQuantization
deriving DecidableEq

/-- Header struct `FSharedRepMovement` (lines 55-79); `RepMovementMode` is a `uint8`. -/
structure FSharedRepMovement where
  RepMovement : FRepMovement
  RepTimeStamp : ℚ
  RepMovementMode : ℕ
  bProxyIsJumpForceApplied : Bool
  bIsCrouched : Bool
deriving DecidableEq

/-- Constructor `FSharedRepMovement::FSharedRepMovement()` with the header's field defaults. -/
def FSharedRepMovement.ctor : FSharedRepMovement :=
  { RepMovement :=
      { Location := ⟨0, 0, 0⟩
        Rotation := ⟨0, 0, 0⟩
        LinearVelocity := ⟨0, 0, 0⟩
        LocationQuantizationLevel := EVectorQuantization.RoundTwoDecimals }
    RepTimeStamp := 0
    RepMovementMode := 0
    bProxyIsJumpForceApplied := false
    bIsCrouched := false }

/-- The root `USceneComponent`: what `GetComponentLocation` / `GetComponentRotation` return. -/
structure USceneComponent where
  ComponentLocation : TVector ℚ
  ComponentRotation : TRotator ℚ
deriving DecidableEq

/-- The part of the character movement component used by shared replication.
`PackedNetworkMovementMode` is the value of `PackNetworkMovementMode()`, and
`ServerLastTransformUpdateTimeStamp` that of `GetServerLastTransformUpdateTimeStamp()`. -/
structure FMovementNetState where
  Velocity : TVector ℚ
  PackedNetworkMovementMode : ℕ
  NetworkSmoothingMode : ENetworkSmoothingMode
  bNetworkAlwaysReplicateTransformUpdateTimestamp : Bool
  ServerLastTransformUpdateTimeStamp : ℚ
  bNetworkMovementModeChanged : Bool
  bNetworkUpdateReceived : Bool
deriving DecidableEq

/-- Engine reactions invoked by the receiver. -/
inductive EReaction where
  | OnRep_ReplicatedMovement
  | OnRep_IsCrouched
deriving DecidableEq

/-- The part of `ALyraCharacter` seen by `UpdateSharedReplication` and
`FastSharedReplication_Implementation`. The movement component is always present
(the constructor obtains it with `CastChecked`). `WorldOrigin` is the origin offset
applied by `FRepMovement::RebaseOntoZeroOrigin` (`none`: rebasing disabled).
`Sent` and `Reactions` record, oldest first, the multicast messages sent and the
engine reactions invoked. -/
structure ALyraCharacter where
  LocalRole : ENetRole
  bIsPlayingReplay : Bool
  RootComponent : Option USceneComponent
  WorldOrigin : Option (TVector ℤ)
  CharacterMovement : FMovementNetState
  bProxyIsJumpForceApplied : Bool
  JumpForceTimeRemaining : ℚ
  bIsCrouched : Bool
  LastSharedReplication : FSharedRepMovement
  ReplicatedMovementMode : ℕ
  ReplicatedServerLastTransformUpdateTimeStamp : ℚ
  ReplicatedMovement : FRepMovement
  Sent : List FSharedRepMovement
  Reactions : List EReaction
deriving DecidableEq

/-- Engine `FRepMovement::RebaseOntoZeroOrigin(Location, Actor)`. -/
def RebaseOntoZeroOrigin (Location : TVector ℚ) (Character : ALyraCharacter) : TVector ℚ :=
  match Character.WorldOrigin with
  | none => Location
  | some o => ⟨Location.X + o.X, Location.Y + o.Y, Location.Z + o.Z⟩

/-- Source function `FSharedRepMovement::FillForCharacter` (lines 650-676): `none` is the `false`
return, `some` the filled snapshot of a `true` return. -/
def FSharedRepMovement.FillForCharacter (self : FSharedRepMovement) (Character : ALyraCharacter) :
    Option FSharedRepMovement :=
  match Character.RootComponent with
  | some PawnRootComponent =>
    let CharacterMovement := Character.CharacterMovement
    some
      { RepMovement :=
          { self.RepMovement with
            Location := RebaseOntoZeroOrigin PawnRootComponent.ComponentLocation Character
            Rotation := PawnRootComponent.ComponentRotation
            LinearVelocity := CharacterMovement.Velocity }
        RepMovementMode := CharacterMovement.PackedNetworkMovementMode
        bProxyIsJumpForceApplied :=
          Character.bProxyIsJumpForceApplied || decide (Character.JumpForceTimeRemaining > 0)
        bIsCrouched := Character.bIsCrouched
        RepTimeStamp :=
          if CharacterMovement.NetworkSmoothingMode = ENetworkSmoothingMode.Linear
              ∨ CharacterMovement.bNetworkAlwaysReplicateTransformUpdateTimestamp = true then
            CharacterMovement.ServerLastTransformUpdateTimeStamp
          else 0 }
  | none => none

/-- Source function `FSharedRepMovement::Equals` (lines 679-712), with its early returns. -/
def FSharedRepMovement.Equals (self Other : FSharedRepMovement) (_Character : ALyraCharacter) :
    Bool :=
  if self.RepMovement.Location ≠ Other.RepMovement.Location then false
  else if self.RepMovement.Rotation ≠ Other.RepMovement.Rotation then false
  else if self.RepMovement.LinearVelocity ≠ Other.RepMovement.LinearVelocity then false
  else if self.RepMovementMode ≠ Other.RepMovementMode then false
  else if self.bProxyIsJumpForceApplied ≠ Other.bProxyIsJumpForceApplied then false
  else if self.bIsCrouched ≠ Other.bIsCrouched then false
  else true

/-- Source function `ALyraCharacter::FastSharedReplication_Implementation` (lines 603-641). -/
def FastSharedReplication_Implementation (c : ALyraCharacter)
    (SharedRepMovement : FSharedRepMovement) : ALyraCharacter :=
  if c.bIsPlayingReplay then c
  else if c.LocalRole = ENetRole.ROLE_SimulatedProxy then
    let c1 := { c with
      ReplicatedServerLastTransformUpdateTimeStamp := SharedRepMovement.RepTimeStamp }
    let c2 :=
      if c1.ReplicatedMovementMode ≠ SharedRepMovement.RepMovementMode then
        { c1 with
          ReplicatedMovementMode := SharedRepMovement.RepMovementMode
          CharacterMovement := { c1.CharacterMovement with
            bNetworkMovementModeChanged := true
            bNetworkUpdateReceived := true } }
      else c1
    let c3 := { c2 with
      ReplicatedMovement := SharedRepMovement.RepMovement
      Reactions := c2.Reactions ++ [EReaction.OnRep_ReplicatedMovement]
      bProxyIsJumpForceApplied := SharedRepMovement.bProxyIsJumpForceApplied }
    if c3.bIsCrouched ≠ SharedRepMovement.bIsCrouched then
      { c3 with
        bIsCrouched := SharedRepMovement.bIsCrouched
        Reactions := c3.Reactions ++ [EReaction.OnRep_IsCrouched] }
    else c3
  else c

/-- The `NetMulticast, unreliable` function `FastSharedReplication` called on the
sender: one message is queued for the observers and the implementation also runs
on the calling instance. -/
def FastSharedReplication (c : ALyraCharacter) (SharedRepMovement : FSharedRepMovement) :
    ALyraCharacter :=
  FastSharedReplication_Implementation { c with Sent := c.Sent ++ [SharedRepMovement] }
    SharedRepMovement

/-- Source function `ALyraCharacter::UpdateSharedReplication` (lines 579-600): the returned flag
and the character afterwards. -/
def UpdateSharedReplication (c : ALyraCharacter) : Bool × ALyraCharacter :=
  if c.LocalRole = ENetRole.ROLE_Authority then
    match FSharedRepMovement.ctor.FillForCharacter c with
    | some SharedMovement =>
      if !SharedMovement.Equals c.LastSharedReplication c then
        (true, FastSharedReplication
          { c with
            LastSharedReplication := SharedMovement
            ReplicatedMovementMode := SharedMovement.RepMovementMode }
          SharedMovement)
      else (true, c)
    | none => (false, c)
  else (false, c)

/-! ## Team identity -/

/-- Engine `FGenericTeamId`, a `uint8`. -/
abbrev FGenericTeamId := ℕ

/-- Engine `FGenericTeamId::NoTeam`. -/
def NoTeam : FGenericTeamId := 255

/-- A controller: its identity and, when it implements `ILyraTeamAgentInterface`
(the `Cast` succeeds), the value of its `GetGenericTeamId()`. -/
structure AController where
  Id : ℕ
  TeamAgent : Option FGenericTeamId
deriving DecidableEq

/-- The two `UE_LOG(LogLyraTeams, Error, ...)` messages of `SetGenericTeamId`. -/
inductive ETeamError where
  | NotAuthority
  | Possessed
deriving DecidableEq

/-- The part of `ALyraCharacter` seen by the team code. `Bound` lists the
controllers whose team-changed delegate has `OnControllerChangedTeam` bound;
`Broadcasts` and `Errors` record, oldest first, the team-changed events fired on
`OnTeamChangedDelegate` and the errors logged. -/
structure FTeamState where
  bHasAuthority : Bool
  Controller : Option AController
  MyTeamID : FGenericTeamId
  Bound : List ℕ
  Broadcasts : List (FGenericTeamId × FGenericTeamId)
  Errors : List ETeamError
deriving DecidableEq

/-- Modelled from the spec: `ILyraTeamAgentInterface::ConditionalBroadcastTeamChanged`,
whose file (Teams/LyraTeamAgentInterface) is not among the sources. The spec:
a single unified change event `(entity, oldId, newId)`, fired only when old ≠ new. -/
def ConditionalBroadcastTeamChanged (s : FTeamState) (OldTeamID NewTeamID : FGenericTeamId) :
    FTeamState :=
  if OldTeamID ≠ NewTeamID then
    { s with Broadcasts := s.Broadcasts ++ [(OldTeamID, NewTeamID)] }
  else s

/-- Source function `ALyraCharacter::NotifyControllerChanged` (lines 175-190). -/
def NotifyControllerChanged (s : FTeamState) : FTeamState :=
  let OldTeamId := s.MyTeamID
  match s.bHasAuthority, s.Controller with
  | true, some Controller =>
    match Controller.TeamAgent with
    | some t => ConditionalBroadcastTeamChanged { s with MyTeamID := t } OldTeamId t
    | none => s
  | _, _ => s

/-- Engine `APawn::PossessedBy`, as far as the team code sees it: the controller
is stored; `bNotify` tells whether the engine then dispatches the virtual
`NotifyControllerChanged`, which the character overrides (lines 175-190) to adopt and
broadcast the team of the controller; the engine does so when the controller is a new one. -/
def APawn_PossessedBy (bNotify : Bool) (s : FTeamState) (NewController : AController) :
    FTeamState :=
  let s1 := { s with Controller := some NewController }
  if bNotify then NotifyControllerChanged s1 else s1

/-- Engine `APawn::UnPossessed`, as far as the team code sees it: the controller is
cleared; `bNotify` tells whether the engine then dispatches the virtual
`NotifyControllerChanged`. -/
def APawn_UnPossessed (bNotify : Bool) (s : FTeamState) : FTeamState :=
  let s1 := { s with Controller := none }
  if bNotify then NotifyControllerChanged s1 else s1

/-- Source function `ALyraCharacter::PossessedBy` (lines 239-254). The call
`PawnExtComponent->HandleControllerChanged()` belongs to another component and has no
effect on the team state. -/
def PossessedBy (bNotify : Bool) (s : FTeamState) (NewController : AController) : FTeamState :=
  let OldTeamID := s.MyTeamID
  let s1 := APawn_PossessedBy bNotify s NewController
  let s2 :=
    match NewController.TeamAgent with
    | some t => { s1 with MyTeamID := t, Bound := s1.Bound ++ [NewController.Id] }
    | none => s1
  ConditionalBroadcastTeamChanged s2 OldTeamID s2.MyTeamID

/-- Header lines 226-230: the default `DetermineNewTeamAfterPossessionEnds`. -/
def DetermineNewTeamAfterPossessionEnds (_OldTeamID : FGenericTeamId) : FGenericTeamId :=
  NoTeam

/-- Source function `ALyraCharacter::UnPossessed` (lines 257-275); `Determine` is the virtual
`DetermineNewTeamAfterPossessionEnds` in force. -/
def UnPossessed (bNotify : Bool) (Determine : FGenericTeamId → FGenericTeamId)
    (s : FTeamState) : FTeamState :=
  let OldController := s.Controller
  let OldTeamID := s.MyTeamID
  let s1 :=
    match OldController with
    | some c =>
      match c.TeamAgent with
      | some _ => { s with Bound := s.Bound.filter (fun i => i ≠ c.Id) }
      | none => s
    | none => s
  let s2 := APawn_UnPossessed bNotify s1
  let s3 := { s2 with MyTeamID := Determine OldTeamID }
  ConditionalBroadcastTeamChanged s3 OldTeamID s3.MyTeamID

/-- Source function `ALyraCharacter::SetGenericTeamId` (lines 531-550). -/
def SetGenericTeamId (s : FTeamState) (NewTeamID : FGenericTeamId) : FTeamState :=
  match s.Controller with
  | none =>
    if s.bHasAuthority then
      let OldTeamID := s.MyTeamID
      let s1 := { s with MyTeamID := NewTeamID }
      ConditionalBroadcastTeamChanged s1 OldTeamID s1.MyTeamID
    else { s with Errors := s.Errors ++ [ETeamError.NotAuthority] }
  | some _ => { s with Errors := s.Errors ++ [ETeamError.Possessed] }

/-- Source function `ALyraCharacter::OnControllerChangedTeam` (lines 565-570); `toTeamId` is the
helper `IntegerToGenericTeamId`, declared outside the sources. -/
def OnControllerChangedTeam (toTeamId : ℤ → FGenericTeamId) (s : FTeamState)
    (_OldTeam NewTeam : ℤ) : FTeamState :=
  let MyOldTeamID := s.MyTeamID
  let s1 := { s with MyTeamID := toTeamId NewTeam }
  ConditionalBroadcastTeamChanged s1 MyOldTeamID s1.MyTeamID

/-- Source function `ALyraCharacter::OnRep_MyTeamID` (lines 573-576). -/
def OnRep_MyTeamID (s : FTeamState) (OldTeamID : FGenericTeamId) : FTeamState :=
  ConditionalBroadcastTeamChanged s OldTeamID s.MyTeamID

/-- Engine replication of `MyTeamID` (`ReplicatedUsing = OnRep_MyTeamID`, header line 218):
the received value is written to the field, then the notify function runs with the value
the field held before. -/
def ReplicateMyTeamID (s : FTeamState) (NewTeamID : FGenericTeamId) : FTeamState :=
  OnRep_MyTeamID { s with MyTeamID := NewTeamID } s.MyTeamID

/-- The events a change-gated call may add: one `(old, new)` when they differ, none otherwise. -/
def teamChangeEvents (OldTeamID NewTeamID : FGenericTeamId) :
    List (FGenericTeamId × FGenericTeamId) :=
  if OldTeamID ≠ NewTeamID then [(OldTeamID, NewTeamID)] else []

/-- A call taking `before` to `after` fired the team-changed event exactly once,
carrying (old id, new id), when the id held before differs from the id held
after, and not at all when they are equal. -/
def FiresOnChange (before after : FTeamState) : Prop :=
  after.Broadcasts = before.Broadcasts ++ teamChangeEvents before.MyTeamID after.MyTeamID

/-! ## Death and teardown -/

/-- The functions of the lifecycle whose executions are recorded. -/
inductive ELifecycleStep where
  | OnDeathStarted
  | OnDeathFinished
  | DestroyDueToDeath
  | Reset
  | UninitAndDestroy
deriving DecidableEq

/-- The part of `ALyraCharacter` seen by the death and teardown code.
`PendingDestroyDueToDeath` counts the timers set by `SetTimerForNextTick` that have
not fired yet; `Executed` records, oldest first, the lifecycle functions that ran. -/
structure FLifecycleState where
  LocalRole : ENetRole
  bMovementAndCollisionDisabled : Bool
  PendingDestroyDueToDeath : ℕ
  bDetachedFromController : Bool
  LifeSpan : Option ℚ
  bAbilitySystemAvatar : Bool
  bHiddenInGame : Bool
  Executed : List ELifecycleStep
deriving DecidableEq

/-- A character that has just begun play. -/
def FLifecycleState.BeginPlay (LocalRole : ENetRole) (bAbilitySystemAvatar : Bool) :
    FLifecycleState :=
  { LocalRole := LocalRole
    bMovementAndCollisionDisabled := false
    PendingDestroyDueToDeath := 0
    bDetachedFromController := false
    LifeSpan := none
    bAbilitySystemAvatar := bAbilitySystemAvatar
    bHiddenInGame := false
    Executed := [] }

/-- Source function `ALyraCharacter::DisableMovementAndCollision` (lines 389-404). -/
def DisableMovementAndCollision (s : FLifecycleState) : FLifecycleState :=
  { s with bMovementAndCollisionDisabled := true }

/-- Source function `ALyraCharacter::OnDeathStarted` (lines 377-380). -/
def OnDeathStarted (s : FLifecycleState) : FLifecycleState :=
  DisableMovementAndCollision { s with Executed := s.Executed ++ [ELifecycleStep.OnDeathStarted] }

/-- Source function `ALyraCharacter::OnDeathFinished` (lines 383-386): `SetTimerForNextTick`. -/
def OnDeathFinished (s : FLifecycleState) : FLifecycleState :=
  { s with
    Executed := s.Executed ++ [ELifecycleStep.OnDeathFinished]
    PendingDestroyDueToDeath := s.PendingDestroyDueToDeath + 1 }

/-- Source function `ALyraCharacter::UninitAndDestroy` (lines 415-433);
`bAbilitySystemAvatar` tells whether the ability system still has this pawn as avatar. -/
def UninitAndDestroy (s : FLifecycleState) : FLifecycleState :=
  let s0 := { s with Executed := s.Executed ++ [ELifecycleStep.UninitAndDestroy] }
  let s1 :=
    if s0.LocalRole = ENetRole.ROLE_Authority then
      { s0 with bDetachedFromController := true, LifeSpan := some (1 / 10) }
    else s0
  let s2 := if s1.bAbilitySystemAvatar then { s1 with bAbilitySystemAvatar := false } else s1
  { s2 with bHiddenInGame := true }

/-- Source function `ALyraCharacter::DestroyDueToDeath` (lines 407-412). -/
def DestroyDueToDeath (s : FLifecycleState) : FLifecycleState :=
  UninitAndDestroy { s with Executed := s.Executed ++ [ELifecycleStep.DestroyDueToDeath] }

/-- Source function `ALyraCharacter::Reset` (lines 137-144). -/
def Reset (s : FLifecycleState) : FLifecycleState :=
  UninitAndDestroy
    (DisableMovementAndCollision { s with Executed := s.Executed ++ [ELifecycleStep.Reset] })

/-- The timer manager's next tick: every pending `DestroyDueToDeath` timer fires. -/
def NextTick (s : FLifecycleState) : FLifecycleState :=
  Nat.iterate DestroyDueToDeath s.PendingDestroyDueToDeath
    { s with PendingDestroyDueToDeath := 0 }

/-- The lifecycle entry points reachable from outside the character. -/
inductive ELifecycleCall where
  | OnDeathStarted
  | OnDeathFinished
  | NextTick
  | Reset
deriving DecidableEq

/-- One entry point applied to the character. -/
def lifecycleStep (s : FLifecycleState) : ELifecycleCall → FLifecycleState
  | ELifecycleCall.OnDeathStarted => OnDeathStarted s
  | ELifecycleCall.OnDeathFinished => OnDeathFinished s
  | ELifecycleCall.NextTick => NextTick s
  | ELifecycleCall.Reset => Reset s

/-- A sequence of entry points applied in order. -/
def lifecycleRun (s : FLifecycleState) (calls : List ELifecycleCall) : FLifecycleState :=
  calls.foldl lifecycleStep s

/-! ## Death and teardown: ordering predicates -/

/-- In the recorded executions, every `DestroyDueToDeath` has its own earlier
`OnDeathFinished`: in each initial part of the record there are at most as many of the
former as of the latter. -/
def DeathTeardownOrdered (tr : List ELifecycleStep) : Prop :=
  ∀ p, p <+: tr →
    p.count ELifecycleStep.DestroyDueToDeath ≤ p.count ELifecycleStep.OnDeathFinished

/-- The invariant of the lifecycle, with `k` timers that are firing in the current tick. -/
def LifecycleInv (k : ℕ) (s : FLifecycleState) : Prop :=
  DeathTeardownOrdered s.Executed ∧
  s.Executed.count ELifecycleStep.DestroyDueToDeath + s.PendingDestroyDueToDeath + k
    = s.Executed.count ELifecycleStep.OnDeathFinished ∧
  s.Executed.count ELifecycleStep.UninitAndDestroy
    = s.Executed.count ELifecycleStep.DestroyDueToDeath
      + s.Executed.count ELifecycleStep.Reset

/-! ## Wire format (`FSharedRepMovement::NetSerialize`) -/

/-- One value in an archive stream. -/
inductive FArchiveItem where
  | Byte (n : ℕ)
  | Flag (b : Bool)
  | Bit (b : Bool)
  | Float (q : ℚ)
deriving DecidableEq

/-- Engine `FArchive`, as a typed stream: a saving archive appends at the end, a loading
archive consumes from the front; `bError` is raised by a read that finds no matching value. -/
structure FArchive where
  bIsLoading : Bool
  Stream : List FArchiveItem
  bError : Bool
deriving DecidableEq

/-- An empty archive that saves. -/
def FArchive.Writer : FArchive := ⟨false, [], false⟩

/-- An archive that loads from `Stream`. -/
def FArchive.Reader (Stream : List FArchiveItem) : FArchive := ⟨true, Stream, false⟩

/-- Archive operator `Ar << uint8`. -/
def FArchive.SerializeByte (Ar : FArchive) (v : ℕ) : ℕ × FArchive :=
  if Ar.bIsLoading then
    match Ar.Stream with
    | FArchiveItem.Byte n :: rest => (n, { Ar with Stream := rest })
    | _ => (0, { Ar with bError := true })
  else (v, { Ar with Stream := Ar.Stream ++ [FArchiveItem.Byte v] })

/-- Archive operator `Ar << bool`. -/
def FArchive.SerializeFlag (Ar : FArchive) (v : Bool) : Bool × FArchive :=
  if Ar.bIsLoading then
    match Ar.Stream with
    | FArchiveItem.Flag b :: rest => (b, { Ar with Stream := rest })
    | _ => (false, { Ar with bError := true })
  else (v, { Ar with Stream := Ar.Stream ++ [FArchiveItem.Flag v] })

/-- Archive call `Ar.SerializeBits(&v, 1)`. -/
def FArchive.SerializeBits1 (Ar : FArchive) (v : Bool) : Bool × FArchive :=
  if Ar.bIsLoading then
    match Ar.Stream with
    | FArchiveItem.Bit b :: rest => (b, { Ar with Stream := rest })
    | _ => (false, { Ar with bError := true })
  else (v, { Ar with Stream := Ar.Stream ++ [FArchiveItem.Bit v] })

/-- Archive operator `Ar << float`. -/
def FArchive.SerializeFloat (Ar : FArchive) (v : ℚ) : ℚ × FArchive :=
  if Ar.bIsLoading then
    match Ar.Stream with
    | FArchiveItem.Float q :: rest => (q, { Ar with Stream := rest })
    | _ => (0, { Ar with bError := true })
  else (v, { Ar with Stream := Ar.Stream ++ [FArchiveItem.Float v] })

/-- Engine `FRepMovement::NetSerialize`, taken as given: what it writes for a record,
and what it reads back (the record, the rest of the stream, its `bOutSuccess`). -/
structure FRepMovementSerializer where
  Save : FRepMovement → List FArchiveItem
  Load : FRepMovement → List FArchiveItem → FRepMovement × List FArchiveItem × Bool

/-- The base serializer reads back exactly the values it wrote, leaving the rest of the
stream in place. -/
def FRepMovementSerializer.RoundTrips (Base : FRepMovementSerializer) : Prop :=
  ∀ (m m0 : FRepMovement) (rest : List FArchiveItem),
    (Base.Load m0 (Base.Save m ++ rest)).2.1 = rest

/-- The call `RepMovement.NetSerialize(Ar, Map, bOutSuccess)` on an archive. -/
def FRepMovementSerializer.NetSerialize (Base : FRepMovementSerializer) (m : FRepMovement)
    (Ar : FArchive) : FRepMovement × FArchive × Bool :=
  if Ar.bIsLoading then
    let r := Base.Load m Ar.Stream
    (r.1, { Ar with Stream := r.2.1 }, r.2.2)
  else (m, { Ar with Stream := Ar.Stream ++ Base.Save m }, true)

/-- What `FSharedRepMovement::NetSerialize` leaves behind: the struct, the archive,
`bOutSuccess` and the returned flag. -/
structure FNetSerializeResult where
  Value : FSharedRepMovement
  Ar : FArchive
  bOutSuccess : Bool
  ReturnValue : Bool

/-- Source function `FSharedRepMovement::NetSerialize` (lines 715-736). -/
def FSharedRepMovement.NetSerialize (Base : FRepMovementSerializer) (self : FSharedRepMovement)
    (Ar : FArchive) : FNetSerializeResult :=
  let r0 := Base.NetSerialize self.RepMovement Ar
  let r1 := r0.2.1.SerializeByte self.RepMovementMode
  let r2 := r1.2.SerializeFlag self.bProxyIsJumpForceApplied
  let r3 := r2.2.SerializeFlag self.bIsCrouched
  let r4 := r3.2.SerializeBits1 (decide (self.RepTimeStamp ≠ 0))
  let r5 : ℚ × FArchive :=
    if r4.1 then r4.2.SerializeFloat self.RepTimeStamp else (0, r4.2)
  { Value :=
      { RepMovement := r0.1
        RepTimeStamp := r5.1
        RepMovementMode := r1.1
        bProxyIsJumpForceApplied := r2.1
        bIsCrouched := r3.1 }
    Ar := r5.2
    bOutSuccess := r0.2.2
    ReturnValue := true }

/-- A base serializer for examples: location, rotation and velocity as nine floats. -/
def sampleBaseSerializer : FRepMovementSerializer :=
  { Save := fun m =>
      [FArchiveItem.Float m.Location.X, FArchiveItem.Float m.Location.Y,
        FArchiveItem.Float m.Location.Z, FArchiveItem.Float m.Rotation.Pitch,
        FArchiveItem.Float m.Rotation.Yaw, FArchiveItem.Float m.Rotation.Roll,
        FArchiveItem.Float m.LinearVelocity.X, FArchiveItem.Float m.LinearVelocity.Y,
        FArchiveItem.Float m.LinearVelocity.Z]
    Load := fun m0 s =>
      match s with
      | FArchiveItem.Float a :: FArchiveItem.Float b :: FArchiveItem.Float c ::
          FArchiveItem.Float d :: FArchiveItem.Float e :: FArchiveItem.Float f ::
          FArchiveItem.Float g :: FArchiveItem.Float h :: FArchiveItem.Float i :: rest =>
        ({ m0 with Location := ⟨a, b, c⟩, Rotation := ⟨d, e, f⟩, LinearVelocity := ⟨g, h, i⟩ },
          rest, true)
      | _ => (m0, s, false) }

/-! ## Sample values -/

/-- A sample authority character: rooted at `(1, 2, 3)`, walking (packed mode 1),
not crouched, nothing sent yet. -/
def sampleAuthority : ALyraCharacter :=
  { LocalRole := ENetRole.ROLE_Authority
    bIsPlayingReplay := false
    RootComponent := some ⟨⟨1, 2, 3⟩, ⟨0, 90, 0⟩⟩
    WorldOrigin := none
    CharacterMovement :=
      { Velocity := ⟨4, 0, 0⟩
        PackedNetworkMovementMode := 1
        NetworkSmoothingMode := ENetworkSmoothingMode.Linear
        bNetworkAlwaysReplicateTransformUpdateTimestamp := false
        ServerLastTransformUpdateTimeStamp := 10
        bNetworkMovementModeChanged := false
        bNetworkUpdateReceived := false }
    bProxyIsJumpForceApplied := false
    JumpForceTimeRemaining := 0
    bIsCrouched := false
    LastSharedReplication := FSharedRepMovement.ctor
    ReplicatedMovementMode := 0
    ReplicatedServerLastTransformUpdateTimeStamp := 0
    ReplicatedMovement := FSharedRepMovement.ctor.RepMovement
    Sent := []
    Reactions := [] }

/-- The snapshot `FillForCharacter` builds for `sampleAuthority` at server time `t`. -/
def sampleSnapshot (t : ℚ) : FSharedRepMovement :=
  { RepMovement :=
      { Location := ⟨1, 2, 3⟩
        Rotation := ⟨0, 90, 0⟩
        LinearVelocity := ⟨4, 0, 0⟩
        LocationQuantizationLevel := EVectorQuantization.RoundTwoDecimals }
    RepTimeStamp := t
    RepMovementMode := 1
    bProxyIsJumpForceApplied := false
    bIsCrouched := false }

/-- The sample character one tick after its first dispatch: only the server time moved on. -/
def sampleAuthorityNextTick : ALyraCharacter :=
  { (UpdateSharedReplication sampleAuthority).2 with
    CharacterMovement :=
      { sampleAuthority.CharacterMovement with ServerLastTransformUpdateTimeStamp := 11 } }

/-- A sample unpossessed team state on the authority, on team 1. -/
def sampleTeamState : FTeamState :=
  { bHasAuthority := true
    Controller := none
    MyTeamID := 1
    Bound := []
    Broadcasts := []
    Errors := [] }

/-- A sample receiving character: the sample character seen on a simulated proxy. -/
def sampleProxy : ALyraCharacter :=
  { sampleAuthority with LocalRole := ENetRole.ROLE_SimulatedProxy }

/-- A sample team-providing controller on team 7. -/
def sampleController : AController := ⟨42, some 7⟩

/-- What `NetSerialize` appends after the base movement fields. -/
def sharedRepTail (S : FSharedRepMovement) : List FArchiveItem :=
  [FArchiveItem.Byte S.RepMovementMode, FArchiveItem.Flag S.bProxyIsJumpForceApplied,
    FArchiveItem.Flag S.bIsCrouched, FArchiveItem.Bit (decide (S.RepTimeStamp ≠ 0))]
    ++ (if S.RepTimeStamp ≠ 0 then [FArchiveItem.Float S.RepTimeStamp] else [])

/-! # Theorems -/

/-! ## Codec: auxiliary facts -/

theorem TWO_PI_pos : 0 < TWO_PI := by
  unfold TWO_PI; positivity

theorem fdiv_of_ne (a : ℝ) {b : ℝ} (h : b ≠ 0) : fdiv a b = some (a / b) := by
  simp [fdiv, h]

theorem fdiv_zero (a : ℝ) : fdiv a 0 = none := by
  simp [fdiv]

theorem Atan2_le_pi (Y X : ℝ) : Atan2 Y X ≤ Real.pi := Complex.arg_le_pi _

theorem neg_pi_lt_Atan2 (Y X : ℝ) : -Real.pi < Atan2 Y X := Complex.neg_pi_lt_arg _

theorem packAccelXYRadians_eq (V : FVector) :
    packAccelXYRadians V = some (toUInt8 ⌊Atan2 V.Y V.X / TWO_PI * 255⌋) := by
  simp [packAccelXYRadians, fdiv_of_ne _ TWO_PI_pos.ne', CartesianToPolar, FloorToInt]

theorem packAccelXYMagnitude_eq {m : ℝ} (hm : m ≠ 0) (V : FVector) :
    packAccelXYMagnitude m V =
      some (toUInt8 ⌊Real.sqrt (V.X * V.X + V.Y * V.Y) / m * 255⌋) := by
  simp [packAccelXYMagnitude, fdiv_of_ne _ hm, CartesianToPolar, FloorToInt]

theorem packAccelZ_eq {m : ℝ} (hm : m ≠ 0) (V : FVector) :
    packAccelZ m V = some (toInt8 ⌊V.Z / m * 127⌋) := by
  simp [packAccelZ, fdiv_of_ne _ hm, FloorToInt]

theorem compressAcceleration_eq {m : ℝ} (hm : m ≠ 0) (V : FVector) :
    compressAcceleration m V =
      some ⟨toUInt8 ⌊Atan2 V.Y V.X / TWO_PI * 255⌋,
            toUInt8 ⌊Real.sqrt (V.X * V.X + V.Y * V.Y) / m * 255⌋,
            toInt8 ⌊V.Z / m * 127⌋⟩ := by
  simp [compressAcceleration, packAccelXYRadians_eq, packAccelXYMagnitude_eq hm,
    packAccelZ_eq hm]

theorem decompressAcceleration_eq (m : ℝ) (c : FLyraReplicatedAcceleration) :
    decompressAcceleration m c =
      some ⟨(c.AccelXYMagnitude : ℝ) * m / 255 * Real.cos ((c.AccelXYRadians : ℝ) * TWO_PI / 255),
            (c.AccelXYMagnitude : ℝ) * m / 255 * Real.sin ((c.AccelXYRadians : ℝ) * TWO_PI / 255),
            (c.AccelZ : ℝ) * m / 127⟩ := by
  have h255 : (255 : ℝ) ≠ 0 := by norm_num
  have h127 : (127 : ℝ) ≠ 0 := by norm_num
  simp [decompressAcceleration, fdiv_of_ne _ h255, fdiv_of_ne _ h127, PolarToCartesian]

theorem sqrt_polar {r : ℝ} (hr : 0 ≤ r) (t : ℝ) :
    Real.sqrt (r * Real.cos t * (r * Real.cos t) + r * Real.sin t * (r * Real.sin t)) = r := by
  have h : r * Real.cos t * (r * Real.cos t) + r * Real.sin t * (r * Real.sin t) = r ^ 2 := by
    have := Real.sin_sq_add_cos_sq t
    nlinarith [this]
  rw [h, Real.sqrt_sq hr]

theorem Atan2_neg_unit : Atan2 (-1) 0 = -(Real.pi / 2) := by
  have h : (⟨0, -1⟩ : ℂ) = -Complex.I := by
    apply Complex.ext <;> simp
  rw [Atan2, h, Complex.arg_neg_I]

theorem toUInt8_of_range {k : ℤ} (h0 : 0 ≤ k) (h1 : k ≤ 255) : toUInt8 k = k := by
  unfold toUInt8; omega

theorem toUInt8_of_neg {k : ℤ} (h0 : -256 ≤ k) (h1 : k < 0) : toUInt8 k = k + 256 := by
  unfold toUInt8; omega

theorem toInt8_of_range {k : ℤ} (h0 : -128 ≤ k) (h1 : k ≤ 127) : toInt8 k = k := by
  unfold toInt8; omega

theorem toUInt8_range (k : ℤ) : 0 ≤ toUInt8 k ∧ toUInt8 k ≤ 255 := by
  unfold toUInt8; omega

/-- The floor of the scaled angle lies in `[-128, 127]`. -/
theorem angle_floor_range (Y X : ℝ) :
    -128 ≤ ⌊Atan2 Y X / TWO_PI * 255⌋ ∧ ⌊Atan2 Y X / TWO_PI * 255⌋ ≤ 127 := by
  have hpi := Real.pi_pos
  have h1 := Atan2_le_pi Y X
  have h2 := neg_pi_lt_Atan2 Y X
  have hT : TWO_PI = 2 * Real.pi := rfl
  have hq : Atan2 Y X / TWO_PI * 255 = Atan2 Y X * (255 / (2 * Real.pi)) := by
    rw [hT]; field_simp
  have hc : (0 : ℝ) < 255 / (2 * Real.pi) := by positivity
  have hcpi : 255 / (2 * Real.pi) * Real.pi = 255 / 2 := by field_simp; ring
  constructor
  · rw [Int.le_floor, hq]
    push_cast
    nlinarith
  · have : ⌊Atan2 Y X / TWO_PI * 255⌋ < 128 := by
      rw [Int.floor_lt, hq]
      push_cast
      nlinarith
    omega

theorem Atan2_polar_of_mem {r : ℝ} (hr : 0 < r) {t : ℝ} (h0 : -Real.pi < t) (h1 : t ≤ Real.pi) :
    Atan2 (r * Real.sin t) (r * Real.cos t) = t := by
  have h : (⟨r * Real.cos t, r * Real.sin t⟩ : ℂ) =
      (r : ℂ) * (Complex.cos (t : ℂ) + Complex.sin (t : ℂ) * Complex.I) := by
    rw [← Complex.ofReal_cos, ← Complex.ofReal_sin]
    apply Complex.ext <;> simp [-Complex.ofReal_cos, -Complex.ofReal_sin]
  rw [Atan2, h, Complex.arg_mul_cos_add_sin_mul_I hr ⟨h0, h1⟩]

theorem compress_none_iff (m : ℝ) (V : FVector) :
    compressAcceleration m V = none ↔ m = 0 := by
  constructor
  · intro h
    by_contra hm
    rw [compressAcceleration_eq hm] at h
    exact Option.noConfusion h
  · rintro rfl
    simp [compressAcceleration, packAccelXYRadians_eq, packAccelXYMagnitude, fdiv_zero]

/-! ## Codec: angle code -/

/-- The angle code always fits a `uint8`. -/
theorem packAccelXYRadians_range (V : FVector) :
    ∃ k : ℤ, packAccelXYRadians V = some k ∧ 0 ≤ k ∧ k ≤ 255 :=
  ⟨_, packAccelXYRadians_eq V, toUInt8_range _⟩

/-- Upper half plane (`Atan2` not negative): the code is the floor of the scaled polar angle. -/
theorem packAccelXYRadians_of_nonneg (V : FVector) (h : 0 ≤ Atan2 V.Y V.X) :
    packAccelXYRadians V = some ⌊Atan2 V.Y V.X / TWO_PI * 255⌋ := by
  obtain ⟨-, hA1⟩ := angle_floor_range V.Y V.X
  have h0 : 0 ≤ ⌊Atan2 V.Y V.X / TWO_PI * 255⌋ := by
    apply Int.floor_nonneg.2
    have := TWO_PI_pos
    positivity
  rw [packAccelXYRadians_eq, toUInt8_of_range h0 (by omega)]

/-- Lower half plane (`Atan2` negative): with the polar angle `Atan2 + 2π` taken in
`[0, 2π)`, the stored code is one more than the floor of the scaled polar angle. -/
theorem packAccelXYRadians_of_neg (V : FVector) (h : Atan2 V.Y V.X < 0) :
    packAccelXYRadians V = some (⌊(Atan2 V.Y V.X + TWO_PI) / TWO_PI * 255⌋ + 1) := by
  obtain ⟨hA0, -⟩ := angle_floor_range V.Y V.X
  have hT := TWO_PI_pos
  have hneg : ⌊Atan2 V.Y V.X / TWO_PI * 255⌋ < 0 := by
    rw [Int.floor_lt]
    push_cast
    have : Atan2 V.Y V.X / TWO_PI < 0 := div_neg_of_neg_of_pos h hT
    linarith
  have e : (Atan2 V.Y V.X + TWO_PI) / TWO_PI * 255 =
      Atan2 V.Y V.X / TWO_PI * 255 + (255 : ℤ) := by
    push_cast
    field_simp
    ring
  rw [packAccelXYRadians_eq, toUInt8_of_neg (by omega) hneg, e, Int.floor_add_int]
  congr 1
  ring

/-- C8, evaluated at the failing input `(0, -1, 0)`: its polar angle in `[0, 2π)` is
`3π/2`, the claimed code `floor(θ / (2π) * 255)` is 191, and `PreReplication` stores 192
(it scales the `Atan2` angle `-π/2` to `-63.75`, floors to `-64` and wraps to `uint8`). -/
theorem angle_code_lower_half_plane :
    packAccelXYRadians ⟨0, -1, 0⟩ = some 192 ∧
    ((0 : ℝ) ≤ 3 * Real.pi / 2 ∧ 3 * Real.pi / 2 < 2 * Real.pi) ∧
    ((0 : ℝ) = 1 * Real.cos (3 * Real.pi / 2) ∧ (-1 : ℝ) = 1 * Real.sin (3 * Real.pi / 2)) ∧
    ⌊(3 * Real.pi / 2) / TWO_PI * 255⌋ = 191 := by
  have hpi := Real.pi_pos
  have e : 3 * Real.pi / 2 = Real.pi / 2 + Real.pi := by ring
  refine ⟨?_, ⟨by positivity, by linarith⟩, ⟨?_, ?_⟩, ?_⟩
  · rw [packAccelXYRadians_eq]
    show some (toUInt8 ⌊Atan2 (-1) 0 / TWO_PI * 255⌋) = some 192
    rw [Atan2_neg_unit]
    have hq : -(Real.pi / 2) / TWO_PI * 255 = -(255 / 4) := by
      unfold TWO_PI; field_simp; ring
    have hf : ⌊(-(255 / 4) : ℝ)⌋ = -64 := by
      rw [Int.floor_eq_iff]; norm_num
    rw [hq, hf]; rfl
  · rw [e, Real.cos_add_pi, Real.cos_pi_div_two]; simp
  · rw [e, Real.sin_add_pi, Real.sin_pi_div_two]; simp
  · have hq : (3 * Real.pi / 2) / TWO_PI * 255 = 765 / 4 := by
      unfold TWO_PI; field_simp; ring
    rw [hq, Int.floor_eq_iff]; norm_num

/-! ## Codec: round trip -/

/-- C9 (as stated) fails at the code `(5, 0, 0)` with `m = 1`: it decompresses to a
vector whose recompression is not `(5, 0, 0)`; a zero magnitude loses the angle. -/
theorem recompress_zero_magnitude_loses_angle :
    ∃ W c2, decompressAcceleration 1 ⟨5, 0, 0⟩ = some W ∧
      compressAcceleration 1 W = some c2 ∧ c2.AccelXYRadians = 0 ∧ c2 ≠ ⟨5, 0, 0⟩ := by
  have h0 : Atan2 0 0 = 0 := by
    have : (⟨0, 0⟩ : ℂ) = 0 := rfl
    rw [Atan2, this, Complex.arg_zero]
  have hA : toUInt8 ⌊Atan2 (((0 : ℤ) : ℝ) * 1 / 255 * Real.sin (((5 : ℤ) : ℝ) * TWO_PI / 255))
      (((0 : ℤ) : ℝ) * 1 / 255 * Real.cos (((5 : ℤ) : ℝ) * TWO_PI / 255)) / TWO_PI * 255⌋ = 0 := by
    simp [h0, toUInt8]
  refine ⟨_, _, decompressAcceleration_eq 1 _, compressAcceleration_eq one_ne_zero _, hA, ?_⟩
  intro h
  have h2 := congrArg FLyraReplicatedAcceleration.AccelXYRadians h
  rw [show (FLyraReplicatedAcceleration.mk 5 0 0).AccelXYRadians = 5 from rfl] at h2
  have h3 : (0 : ℤ) = 5 := hA.symm.trans h2
  omega

/-- C9 (amended): for every `m > 0` and every code `c` within the range of its types,
compressing the vector rebuilt from `c` gives back the magnitude code and the z code of
`c` exactly, and the angle code of `c` exactly when the magnitude code is not zero and
the angle code is at most 127. -/
theorem recompress_codes (m : ℝ) (hm : 0 < m) (c : FLyraReplicatedAcceleration)
    (hc : c.InRange) :
    ∃ W c2, decompressAcceleration m c = some W ∧ compressAcceleration m W = some c2 ∧
      c2.AccelXYMagnitude = c.AccelXYMagnitude ∧ c2.AccelZ = c.AccelZ ∧
      (c.AccelXYMagnitude ≠ 0 → c.AccelXYRadians ≤ 127 →
        c2.AccelXYRadians = c.AccelXYRadians) := by
  obtain ⟨⟨hA0, hA1⟩, ⟨hM0, hM1⟩, hZ0, hZ1⟩ := hc
  have hρ0 : 0 ≤ (c.AccelXYMagnitude : ℝ) * m / 255 := by
    have : (0 : ℝ) ≤ (c.AccelXYMagnitude : ℝ) := by exact_mod_cast hM0
    positivity
  refine ⟨_, _, decompressAcceleration_eq m c, compressAcceleration_eq hm.ne' _, ?_, ?_, ?_⟩
  · show toUInt8 ⌊Real.sqrt _ / m * 255⌋ = _
    rw [sqrt_polar hρ0]
    have e : (c.AccelXYMagnitude : ℝ) * m / 255 / m * 255 = (c.AccelXYMagnitude : ℝ) := by
      field_simp; ring
    rw [e, Int.floor_intCast, toUInt8_of_range hM0 hM1]
  · show toInt8 ⌊(c.AccelZ : ℝ) * m / 127 / m * 127⌋ = _
    have e : (c.AccelZ : ℝ) * m / 127 / m * 127 = (c.AccelZ : ℝ) := by
      field_simp; ring
    rw [e, Int.floor_intCast, toInt8_of_range hZ0 hZ1]
  · intro hMne hA127
    show toUInt8 ⌊Atan2 _ _ / TWO_PI * 255⌋ = _
    have hρ : 0 < (c.AccelXYMagnitude : ℝ) * m / 255 := by
      have : (0 : ℝ) < (c.AccelXYMagnitude : ℝ) := by
        exact_mod_cast lt_of_le_of_ne hM0 (Ne.symm hMne)
      positivity
    have hT : TWO_PI = 2 * Real.pi := rfl
    have hAr0 : (0 : ℝ) ≤ (c.AccelXYRadians : ℝ) := by exact_mod_cast hA0
    have hAr1 : (c.AccelXYRadians : ℝ) ≤ 127 := by exact_mod_cast hA127
    have hpi := Real.pi_pos
    have ht0 : -Real.pi < (c.AccelXYRadians : ℝ) * TWO_PI / 255 := by
      have : 0 ≤ (c.AccelXYRadians : ℝ) * TWO_PI / 255 := by
        have := TWO_PI_pos
        positivity
      linarith
    have ht1 : (c.AccelXYRadians : ℝ) * TWO_PI / 255 ≤ Real.pi := by
      rw [hT, div_le_iff₀ (by norm_num)]
      nlinarith
    rw [Atan2_polar_of_mem hρ ht0 ht1]
    have e : (c.AccelXYRadians : ℝ) * TWO_PI / 255 / TWO_PI * 255 = (c.AccelXYRadians : ℝ) := by
      have := TWO_PI_pos.ne'
      field_simp; ring
    rw [e, Int.floor_intCast, toUInt8_of_range hA0 hA1]

/-- C9 (amended) at `m = 1000` and the code `(31, 254, 0)`. -/
theorem recompress_codes_witness :
    ((0 : ℝ) < 1000 ∧ (FLyraReplicatedAcceleration.mk 31 254 0).InRange) ∧
    ∃ W c2, decompressAcceleration 1000 ⟨31, 254, 0⟩ = some W ∧
      compressAcceleration 1000 W = some c2 ∧
      c2.AccelXYMagnitude = 254 ∧ c2.AccelZ = 0 ∧
      ((254 : ℤ) ≠ 0 → (31 : ℤ) ≤ 127 → c2.AccelXYRadians = 31) := by
  have hyp : (0 : ℝ) < 1000 ∧ (FLyraReplicatedAcceleration.mk 31 254 0).InRange :=
    ⟨by norm_num, by unfold FLyraReplicatedAcceleration.InRange; decide⟩
  exact ⟨hyp, recompress_codes 1000 hyp.1 ⟨31, 254, 0⟩ hyp.2⟩

/-! ## Codec: `MaxAcceleration == 0` on the sending side -/

/-- C10 (as stated) fails at `MaxAcceleration = 0`, acceleration `(3, 4, 5)`: the
magnitude code and the z code are each computed by a division by zero. -/
theorem PreReplication_zero_max_divides_by_zero :
    packAccelXYMagnitude 0 ⟨3, 4, 5⟩ = none ∧ packAccelZ 0 ⟨3, 4, 5⟩ = none ∧
      PreReplication (some ⟨0, ⟨3, 4, 5⟩⟩) ⟨0, 0, 0⟩ = none := by
  refine ⟨?_, ?_, ?_⟩
  · simp [packAccelXYMagnitude, fdiv_zero]
  · simp [packAccelZ, fdiv_zero]
  · exact (compress_none_iff 0 _).2 rfl

/-- C10 (amended): `PreReplication` guards only against a missing movement component
(the stored codes are then kept). With a movement component a division by zero happens
exactly when `MaxAcceleration` is 0, and then, for every acceleration vector, in the
computation of the magnitude code and of the z code. -/
theorem PreReplication_division_by_zero (old : FLyraReplicatedAcceleration) :
    PreReplication none old = some old ∧
    (∀ mc : UCharacterMovementComponent,
      PreReplication (some mc) old = none ↔ mc.MaxAcceleration = 0) ∧
    (∀ V : FVector, packAccelXYMagnitude 0 V = none ∧ packAccelZ 0 V = none) ∧
    (∀ (m : ℝ) (V : FVector), m ≠ 0 →
      (packAccelXYRadians V).isSome ∧ (packAccelXYMagnitude m V).isSome ∧
        (packAccelZ m V).isSome) := by
  refine ⟨rfl, fun mc => compress_none_iff _ _, fun V => ⟨?_, ?_⟩, fun m V hm => ?_⟩
  · simp [packAccelXYMagnitude, fdiv_zero]
  · simp [packAccelZ, fdiv_zero]
  · rw [packAccelXYRadians_eq, packAccelXYMagnitude_eq hm, packAccelZ_eq hm]
    exact ⟨rfl, rfl, rfl⟩

/-! ## Snapshot equality -/

/-- The function `Equals` holds exactly when the six compared fields coincide. -/
theorem Equals_eq_true_iff (A B : FSharedRepMovement) (Character : ALyraCharacter) :
    A.Equals B Character = true ↔
      A.RepMovement.Location = B.RepMovement.Location ∧
      A.RepMovement.Rotation = B.RepMovement.Rotation ∧
      A.RepMovement.LinearVelocity = B.RepMovement.LinearVelocity ∧
      A.RepMovementMode = B.RepMovementMode ∧
      A.bProxyIsJumpForceApplied = B.bProxyIsJumpForceApplied ∧
      A.bIsCrouched = B.bIsCrouched := by
  unfold FSharedRepMovement.Equals
  constructor
  · intro h
    split_ifs at h with h1 h2 h3 h4 h5 h6
    exact ⟨not_not.1 h1, not_not.1 h2, not_not.1 h3, not_not.1 h4, not_not.1 h5, not_not.1 h6⟩
  · rintro ⟨h1, h2, h3, h4, h5, h6⟩
    simp [h1, h2, h3, h4, h5, h6]

/-- The function `Equals` does not depend on its `Character` argument. -/
theorem Equals_character (A B : FSharedRepMovement) (C1 C2 : ALyraCharacter) :
    A.Equals B C1 = A.Equals B C2 := rfl

/-- The function `Equals` is transitive. -/
theorem Equals_trans {A B C : FSharedRepMovement} {c1 c2 c3 : ALyraCharacter}
    (h1 : A.Equals B c1 = true) (h2 : B.Equals C c2 = true) : A.Equals C c3 = true := by
  rw [Equals_eq_true_iff] at h1 h2 ⊢
  obtain ⟨a1, a2, a3, a4, a5, a6⟩ := h1
  obtain ⟨b1, b2, b3, b4, b5, b6⟩ := h2
  exact ⟨a1.trans b1, a2.trans b2, a3.trans b3, a4.trans b4, a5.trans b5, a6.trans b6⟩

/-- C4: `Equals(A, B)` is true if and only if `A` and `B` have identical location,
rotation, linear velocity, movement-mode code, jump-force flag and crouch flag, with no
tolerance; the timestamps and the `Character` argument do not influence the result. -/
theorem Equals_exact_fieldwise (A B : FSharedRepMovement) (Character : ALyraCharacter) :
    (A.Equals B Character = true ↔
      A.RepMovement.Location = B.RepMovement.Location ∧
      A.RepMovement.Rotation = B.RepMovement.Rotation ∧
      A.RepMovement.LinearVelocity = B.RepMovement.LinearVelocity ∧
      A.RepMovementMode = B.RepMovementMode ∧
      A.bProxyIsJumpForceApplied = B.bProxyIsJumpForceApplied ∧
      A.bIsCrouched = B.bIsCrouched) ∧
    (∀ (t1 t2 : ℚ) (Other : ALyraCharacter),
      FSharedRepMovement.Equals { A with RepTimeStamp := t1 } { B with RepTimeStamp := t2 } Other
        = A.Equals B Character) :=
  ⟨Equals_eq_true_iff A B Character, fun _ _ _ => rfl⟩

/-! ## Replication dispatcher -/

/-- Snapshot construction fails exactly when the character has no root component. -/
theorem FillForCharacter_eq_none_iff (S : FSharedRepMovement) (c : ALyraCharacter) :
    S.FillForCharacter c = none ↔ c.RootComponent = none := by
  unfold FSharedRepMovement.FillForCharacter
  cases c.RootComponent <;> simp

/-- On the authority the local run of the multicast implementation changes nothing. -/
theorem FastSharedReplication_authority (c : ALyraCharacter) (S : FSharedRepMovement)
    (h : c.LocalRole = ENetRole.ROLE_Authority) :
    FastSharedReplication c S = { c with Sent := c.Sent ++ [S] } := by
  unfold FastSharedReplication FastSharedReplication_Implementation
  simp [h]

/-- The dispatcher on the authority with a snapshot that differs from the last one sent. -/
theorem UpdateSharedReplication_send (c : ALyraCharacter) (S : FSharedRepMovement)
    (hr : c.LocalRole = ENetRole.ROLE_Authority)
    (hS : FSharedRepMovement.ctor.FillForCharacter c = some S)
    (hne : S.Equals c.LastSharedReplication c = false) :
    UpdateSharedReplication c =
      (true, { c with
        LastSharedReplication := S
        ReplicatedMovementMode := S.RepMovementMode
        Sent := c.Sent ++ [S] }) := by
  unfold UpdateSharedReplication
  rw [if_pos hr, hS]
  simp only [hne, Bool.not_false, if_true]
  exact congrArg (Prod.mk true)
    (FastSharedReplication_authority
      { c with LastSharedReplication := S, ReplicatedMovementMode := S.RepMovementMode } S hr)

/-- The dispatcher on the authority with a snapshot equal to the last one sent. -/
theorem UpdateSharedReplication_suppress (c : ALyraCharacter) (S : FSharedRepMovement)
    (hr : c.LocalRole = ENetRole.ROLE_Authority)
    (hS : FSharedRepMovement.ctor.FillForCharacter c = some S)
    (heq : S.Equals c.LastSharedReplication c = true) :
    UpdateSharedReplication c = (true, c) := by
  unfold UpdateSharedReplication
  rw [if_pos hr, hS]
  simp [heq]

/-- C7: `UpdateSharedReplication` returns false exactly when the local role is not
Authority or the character has no root component (which is exactly when
`FillForCharacter` fails), and true otherwise; whenever it returns false the character is
unchanged: no message is sent and `LastSharedReplication` and `ReplicatedMovementMode`
keep their values. -/
theorem UpdateSharedReplication_failure (c : ALyraCharacter) :
    ((UpdateSharedReplication c).1 = false ↔
      (c.LocalRole ≠ ENetRole.ROLE_Authority ∨ c.RootComponent = none)) ∧
    ((UpdateSharedReplication c).1 = true ↔
      (c.LocalRole = ENetRole.ROLE_Authority ∧ c.RootComponent ≠ none)) ∧
    (FSharedRepMovement.ctor.FillForCharacter c = none ↔ c.RootComponent = none) ∧
    ((UpdateSharedReplication c).1 = false →
      (UpdateSharedReplication c).2 = c ∧
      (UpdateSharedReplication c).2.Sent = c.Sent ∧
      (UpdateSharedReplication c).2.LastSharedReplication = c.LastSharedReplication ∧
      (UpdateSharedReplication c).2.ReplicatedMovementMode = c.ReplicatedMovementMode) := by
  have key : ((UpdateSharedReplication c).1 = false ↔
      (c.LocalRole ≠ ENetRole.ROLE_Authority ∨ c.RootComponent = none)) ∧
      ((UpdateSharedReplication c).1 = false → (UpdateSharedReplication c).2 = c) := by
    by_cases hr : c.LocalRole = ENetRole.ROLE_Authority
    · cases hF : FSharedRepMovement.ctor.FillForCharacter c with
      | none =>
        have hroot := (FillForCharacter_eq_none_iff _ c).1 hF
        have hU : UpdateSharedReplication c = (false, c) := by
          unfold UpdateSharedReplication
          rw [if_pos hr, hF]
        rw [hU]
        exact ⟨⟨fun _ => Or.inr hroot, fun _ => rfl⟩, fun _ => rfl⟩
      | some S =>
        have hroot : c.RootComponent ≠ none := by
          intro h
          rw [(FillForCharacter_eq_none_iff _ c).2 h] at hF
          exact Option.noConfusion hF
        have h1 : (UpdateSharedReplication c).1 = true := by
          cases hE : S.Equals c.LastSharedReplication c
          · rw [UpdateSharedReplication_send c S hr hF hE]
          · rw [UpdateSharedReplication_suppress c S hr hF hE]
        rw [h1]
        refine ⟨⟨fun h => Bool.noConfusion h, ?_⟩, fun h => Bool.noConfusion h⟩
        rintro (h | h)
        · exact absurd hr h
        · exact absurd h hroot
    · have hU : UpdateSharedReplication c = (false, c) := by
        unfold UpdateSharedReplication
        rw [if_neg hr]
      rw [hU]
      exact ⟨⟨fun _ => Or.inl hr, fun _ => rfl⟩, fun _ => rfl⟩
  obtain ⟨k1, k2⟩ := key
  refine ⟨k1, ?_, FillForCharacter_eq_none_iff _ c, ?_⟩
  · rw [← Bool.not_eq_false, k1]
    push_neg
    rfl
  · intro h
    have := k2 h
    rw [this]
    exact ⟨rfl, rfl, rfl, rfl⟩

/-- C2: on the authority, when snapshot construction succeeds, a first call of
`UpdateSharedReplication` followed by a second call on a character whose location,
rotation, velocity, movement mode, jump-force flag and crouch flag have not changed
(whatever else changed) sends at most one message in total; the second call sends none
and returns true. -/
theorem UpdateSharedReplication_idempotent (c c2 : ALyraCharacter) (S S2 : FSharedRepMovement)
    (hr : c.LocalRole = ENetRole.ROLE_Authority)
    (hS : FSharedRepMovement.ctor.FillForCharacter c = some S)
    (hr2 : c2.LocalRole = ENetRole.ROLE_Authority)
    (hLast : c2.LastSharedReplication = (UpdateSharedReplication c).2.LastSharedReplication)
    (hSent : c2.Sent = (UpdateSharedReplication c).2.Sent)
    (hS2 : FSharedRepMovement.ctor.FillForCharacter c2 = some S2)
    (hsame : S2.Equals S c2 = true) :
    (UpdateSharedReplication c2).1 = true ∧
    (UpdateSharedReplication c2).2.Sent = c2.Sent ∧
    (c2.Sent = c.Sent ∨ c2.Sent = c.Sent ++ [S]) ∧
    (UpdateSharedReplication c2).2.Sent.length ≤ c.Sent.length + 1 := by
  have hfirst : (UpdateSharedReplication c).2.LastSharedReplication.Equals S c = true ∧
      ((UpdateSharedReplication c).2.Sent = c.Sent ∨
        (UpdateSharedReplication c).2.Sent = c.Sent ++ [S]) := by
    cases hE : S.Equals c.LastSharedReplication c
    · rw [UpdateSharedReplication_send c S hr hS hE]
      refine ⟨?_, Or.inr rfl⟩
      rw [Equals_eq_true_iff]
      exact ⟨rfl, rfl, rfl, rfl, rfl, rfl⟩
    · rw [UpdateSharedReplication_suppress c S hr hS hE]
      refine ⟨?_, Or.inl rfl⟩
      rw [Equals_eq_true_iff] at hE ⊢
      obtain ⟨a1, a2, a3, a4, a5, a6⟩ := hE
      exact ⟨a1.symm, a2.symm, a3.symm, a4.symm, a5.symm, a6.symm⟩
  obtain ⟨hL, hsent1⟩ := hfirst
  have hE2 : S2.Equals c2.LastSharedReplication c2 = true := by
    rw [hLast]
    have hL2 : S.Equals (UpdateSharedReplication c).2.LastSharedReplication c = true := by
      rw [Equals_eq_true_iff] at hL ⊢
      obtain ⟨a1, a2, a3, a4, a5, a6⟩ := hL
      exact ⟨a1.symm, a2.symm, a3.symm, a4.symm, a5.symm, a6.symm⟩
    exact Equals_trans hsame hL2
  rw [UpdateSharedReplication_suppress c2 S2 hr2 hS2 hE2]
  rw [← hSent] at hsent1
  refine ⟨rfl, rfl, hsent1, ?_⟩
  rcases hsent1 with h | h
  · show c2.Sent.length ≤ _
    rw [h]; omega
  · show c2.Sent.length ≤ _
    rw [h]; simp

/-- C2 at the sample character: first tick sends, second tick (server time moved on,
nothing else) sends nothing and returns true. -/
theorem UpdateSharedReplication_idempotent_witness :
    (sampleAuthority.LocalRole = ENetRole.ROLE_Authority ∧
      FSharedRepMovement.ctor.FillForCharacter sampleAuthority = some (sampleSnapshot 10) ∧
      sampleAuthorityNextTick.LocalRole = ENetRole.ROLE_Authority ∧
      sampleAuthorityNextTick.LastSharedReplication =
        (UpdateSharedReplication sampleAuthority).2.LastSharedReplication ∧
      sampleAuthorityNextTick.Sent = (UpdateSharedReplication sampleAuthority).2.Sent ∧
      FSharedRepMovement.ctor.FillForCharacter sampleAuthorityNextTick
        = some (sampleSnapshot 11) ∧
      (sampleSnapshot 11).Equals (sampleSnapshot 10) sampleAuthorityNextTick = true) ∧
    ((UpdateSharedReplication sampleAuthorityNextTick).1 = true ∧
      (UpdateSharedReplication sampleAuthorityNextTick).2.Sent = sampleAuthorityNextTick.Sent ∧
      (sampleAuthorityNextTick.Sent = sampleAuthority.Sent ∨
        sampleAuthorityNextTick.Sent = sampleAuthority.Sent ++ [sampleSnapshot 10]) ∧
      (UpdateSharedReplication sampleAuthorityNextTick).2.Sent.length
        ≤ sampleAuthority.Sent.length + 1) ∧
    (UpdateSharedReplication sampleAuthority).2.Sent = [sampleSnapshot 10] ∧
    (UpdateSharedReplication sampleAuthorityNextTick).2.Sent = [sampleSnapshot 10] := by
  have hyp : sampleAuthority.LocalRole = ENetRole.ROLE_Authority ∧
      FSharedRepMovement.ctor.FillForCharacter sampleAuthority = some (sampleSnapshot 10) ∧
      sampleAuthorityNextTick.LocalRole = ENetRole.ROLE_Authority ∧
      sampleAuthorityNextTick.LastSharedReplication =
        (UpdateSharedReplication sampleAuthority).2.LastSharedReplication ∧
      sampleAuthorityNextTick.Sent = (UpdateSharedReplication sampleAuthority).2.Sent ∧
      FSharedRepMovement.ctor.FillForCharacter sampleAuthorityNextTick
        = some (sampleSnapshot 11) ∧
      (sampleSnapshot 11).Equals (sampleSnapshot 10) sampleAuthorityNextTick = true := by
    refine ⟨rfl, by decide, by decide, rfl, rfl, by decide, by decide⟩
  exact ⟨hyp, UpdateSharedReplication_idempotent sampleAuthority sampleAuthorityNextTick
    (sampleSnapshot 10) (sampleSnapshot 11) hyp.1 hyp.2.1 hyp.2.2.1 hyp.2.2.2.1 hyp.2.2.2.2.1
    hyp.2.2.2.2.2.1 hyp.2.2.2.2.2.2, by decide, by decide⟩

/-! ## Team identity -/

/-- The modelled broadcast helper keeps everything but the event list. -/
theorem ConditionalBroadcastTeamChanged_spec (s : FTeamState) (o n : FGenericTeamId) :
    (ConditionalBroadcastTeamChanged s o n).MyTeamID = s.MyTeamID ∧
    (ConditionalBroadcastTeamChanged s o n).Controller = s.Controller ∧
    (ConditionalBroadcastTeamChanged s o n).Errors = s.Errors ∧
    (ConditionalBroadcastTeamChanged s o n).Broadcasts = s.Broadcasts ++ teamChangeEvents o n := by
  unfold ConditionalBroadcastTeamChanged teamChangeEvents
  by_cases h : o = n <;> simp [h]

/-- The engine base of un-possession fires no team event: the controller is gone when
`NotifyControllerChanged` looks at it. -/
theorem APawn_UnPossessed_spec (b : Bool) (s : FTeamState) :
    APawn_UnPossessed b s = { s with Controller := none } := by
  unfold APawn_UnPossessed NotifyControllerChanged
  cases b <;> cases s.bHasAuthority <;> simp

/-- The engine base of possession, when it does not dispatch `NotifyControllerChanged`. -/
theorem APawn_PossessedBy_false (s : FTeamState) (C : AController) :
    APawn_PossessedBy false s C = { s with Controller := some C } := by
  simp [APawn_PossessedBy]

/-- The own notification of `PossessedBy` comes after whatever the base call fired and
is gated on the id captured at entry against the id held at exit. -/
theorem PossessedBy_Broadcasts (b : Bool) (s : FTeamState) (C : AController) :
    (PossessedBy b s C).Broadcasts =
      (APawn_PossessedBy b s C).Broadcasts
        ++ teamChangeEvents s.MyTeamID (PossessedBy b s C).MyTeamID := by
  unfold PossessedBy
  cases hC : C.TeamAgent <;>
    simp [(ConditionalBroadcastTeamChanged_spec _ _ _).2.2.2,
      (ConditionalBroadcastTeamChanged_spec _ _ _).1]

theorem UnPossessed_FiresOnChange (b : Bool) (D : FGenericTeamId → FGenericTeamId)
    (s : FTeamState) : FiresOnChange s (UnPossessed b D s) := by
  unfold FiresOnChange UnPossessed
  rw [(ConditionalBroadcastTeamChanged_spec _ _ _).2.2.2,
    (ConditionalBroadcastTeamChanged_spec _ _ _).1, APawn_UnPossessed_spec]
  rcases hc : s.Controller with _ | c
  · simp
  · cases hT : c.TeamAgent <;> simp [hT]

theorem SetGenericTeamId_FiresOnChange (s : FTeamState) (t : FGenericTeamId) :
    FiresOnChange s (SetGenericTeamId s t) := by
  unfold FiresOnChange SetGenericTeamId
  rcases hc : s.Controller with _ | c
  · cases ha : s.bHasAuthority
    · simp [teamChangeEvents]
    · simp [(ConditionalBroadcastTeamChanged_spec _ _ _).2.2.2,
        (ConditionalBroadcastTeamChanged_spec _ _ _).1]
  · simp [teamChangeEvents]

theorem OnControllerChangedTeam_FiresOnChange (f : ℤ → FGenericTeamId) (s : FTeamState)
    (o n : ℤ) : FiresOnChange s (OnControllerChangedTeam f s o n) := by
  unfold FiresOnChange OnControllerChangedTeam
  simp [(ConditionalBroadcastTeamChanged_spec _ _ _).2.2.2,
    (ConditionalBroadcastTeamChanged_spec _ _ _).1]

/-- A replicated change of the team id, notified through `OnRep_MyTeamID` with the old
value as argument, fires exactly once when the id changed and not at all otherwise. -/
theorem ReplicateMyTeamID_FiresOnChange (s : FTeamState) (t : FGenericTeamId) :
    FiresOnChange s (ReplicateMyTeamID s t) := by
  unfold FiresOnChange ReplicateMyTeamID OnRep_MyTeamID
  simp [(ConditionalBroadcastTeamChanged_spec _ _ _).2.2.2,
    (ConditionalBroadcastTeamChanged_spec _ _ _).1]

/-- Change gating of the team entry points other than a notified possession: one call
of `UnPossessed`, `SetGenericTeamId` or `OnControllerChangedTeam`, and one replicated
update notified through `OnRep_MyTeamID`, fires the team-changed event exactly once,
carrying (old id, new id), when the team id held before differs from the id held after,
and zero times when they are equal; so does `PossessedBy` when the base class does not
dispatch `NotifyControllerChanged`. In every case the own notification of `PossessedBy`
follows whatever the base-class call fired, and `OnRep_MyTeamID` leaves `MyTeamID` as it
is and compares its argument with it. -/
theorem team_change_gated (b : Bool) (D : FGenericTeamId → FGenericTeamId)
    (f : ℤ → FGenericTeamId) (s : FTeamState) (C : AController) (t OldTeamID : FGenericTeamId)
    (o n : ℤ) :
    (PossessedBy b s C).Broadcasts =
      (APawn_PossessedBy b s C).Broadcasts
        ++ teamChangeEvents s.MyTeamID (PossessedBy b s C).MyTeamID ∧
    FiresOnChange s (PossessedBy false s C) ∧
    FiresOnChange s (UnPossessed b D s) ∧
    FiresOnChange s (SetGenericTeamId s t) ∧
    FiresOnChange s (OnControllerChangedTeam f s o n) ∧
    FiresOnChange s (ReplicateMyTeamID s t) ∧
    (OnRep_MyTeamID s OldTeamID).MyTeamID = s.MyTeamID ∧
    (OnRep_MyTeamID s OldTeamID).Broadcasts
      = s.Broadcasts ++ teamChangeEvents OldTeamID s.MyTeamID := by
  refine ⟨PossessedBy_Broadcasts b s C, ?_, UnPossessed_FiresOnChange b D s,
    SetGenericTeamId_FiresOnChange s t, OnControllerChangedTeam_FiresOnChange f s o n,
    ReplicateMyTeamID_FiresOnChange s t,
    (ConditionalBroadcastTeamChanged_spec _ _ _).1,
    (ConditionalBroadcastTeamChanged_spec _ _ _).2.2.2⟩
  unfold FiresOnChange
  rw [PossessedBy_Broadcasts, APawn_PossessedBy_false]

/-- When the engine base of possession dispatches `NotifyControllerChanged` (authority,
team-providing controller on another team), the change is broadcast twice: once by
`NotifyControllerChanged` and once by `PossessedBy` itself. -/
theorem PossessedBy_notified_twice (s : FTeamState) (C : AController) (t : FGenericTeamId)
    (ha : s.bHasAuthority = true) (hC : C.TeamAgent = some t) (ht : s.MyTeamID ≠ t) :
    (PossessedBy true s C).Broadcasts
      = s.Broadcasts ++ [(s.MyTeamID, t), (s.MyTeamID, t)] := by
  simp [PossessedBy, APawn_PossessedBy, NotifyControllerChanged, ha, hC,
    ConditionalBroadcastTeamChanged, ht]

/-- C3, evaluated at the failing input: an unpossessed authority character on team 1 is
possessed by a team-providing controller on team 7, the base class dispatching
`NotifyControllerChanged`. The team id goes from 1 to 7, one logical change, and the
team-changed event fires twice, each time carrying `(1, 7)`: first from
`NotifyControllerChanged` inside the base-class call, then from `PossessedBy` itself,
whose old id was captured before that call. -/
theorem PossessedBy_broadcasts_change_twice :
    sampleTeamState.MyTeamID = 1 ∧
    (PossessedBy true sampleTeamState sampleController).MyTeamID = 7 ∧
    (APawn_PossessedBy true sampleTeamState sampleController).Broadcasts = [(1, 7)] ∧
    (PossessedBy true sampleTeamState sampleController).Broadcasts = [(1, 7), (1, 7)] ∧
    ¬ FiresOnChange sampleTeamState (PossessedBy true sampleTeamState sampleController) := by
  refine ⟨rfl, by decide, by decide, by decide, ?_⟩
  unfold FiresOnChange
  decide

/-- C5: `SetGenericTeamId` assigns `MyTeamID` if and only if the character has no
controller and has authority; on a possessed character, or without authority, `MyTeamID`
is unchanged, no team-changed event is fired, and exactly one error is logged. -/
theorem SetGenericTeamId_misuse (s : FTeamState) (NewTeamID : FGenericTeamId) :
    ((s.Controller = none ∧ s.bHasAuthority = true) →
      (SetGenericTeamId s NewTeamID).MyTeamID = NewTeamID ∧
      (SetGenericTeamId s NewTeamID).Errors = s.Errors) ∧
    (¬ (s.Controller = none ∧ s.bHasAuthority = true) →
      (SetGenericTeamId s NewTeamID).MyTeamID = s.MyTeamID ∧
      (SetGenericTeamId s NewTeamID).Broadcasts = s.Broadcasts ∧
      (SetGenericTeamId s NewTeamID).Errors =
        s.Errors ++ [if s.Controller = none then ETeamError.NotAuthority
          else ETeamError.Possessed]) ∧
    ((SetGenericTeamId s NewTeamID).MyTeamID ≠ s.MyTeamID →
      s.Controller = none ∧ s.bHasAuthority = true) := by
  unfold SetGenericTeamId
  rcases hc : s.Controller with _ | c
  · cases ha : s.bHasAuthority
    · simp
    · simp [(ConditionalBroadcastTeamChanged_spec _ _ _).1,
        (ConditionalBroadcastTeamChanged_spec _ _ _).2.2.1]
  · simp

/-! ## Death and teardown -/

theorem DeathTeardownOrdered_concat {tr : List ELifecycleStep} {x : ELifecycleStep}
    (h : DeathTeardownOrdered tr)
    (hx : (tr ++ [x]).count ELifecycleStep.DestroyDueToDeath
      ≤ (tr ++ [x]).count ELifecycleStep.OnDeathFinished) :
    DeathTeardownOrdered (tr ++ [x]) := by
  intro p hp
  rcases List.prefix_concat_iff.1 hp with rfl | hp2
  · exact hx
  · exact h p hp2

theorem UninitAndDestroy_Executed (s : FLifecycleState) :
    (UninitAndDestroy s).Executed = s.Executed ++ [ELifecycleStep.UninitAndDestroy] ∧
    (UninitAndDestroy s).PendingDestroyDueToDeath = s.PendingDestroyDueToDeath := by
  unfold UninitAndDestroy
  constructor <;> (simp only []; split_ifs <;> rfl)

theorem LifecycleInv_OnDeathStarted {s : FLifecycleState} (h : LifecycleInv 0 s) :
    LifecycleInv 0 (OnDeathStarted s) := by
  obtain ⟨h1, h2, h3⟩ := h
  refine ⟨?_, ?_, ?_⟩
  · apply DeathTeardownOrdered_concat h1
    have := h1 s.Executed (List.prefix_refl _)
    simpa [List.count_singleton] using this
  · simpa [OnDeathStarted, DisableMovementAndCollision, List.count_singleton] using h2
  · simpa [OnDeathStarted, DisableMovementAndCollision, List.count_singleton] using h3

theorem LifecycleInv_OnDeathFinished {s : FLifecycleState} (h : LifecycleInv 0 s) :
    LifecycleInv 0 (OnDeathFinished s) := by
  obtain ⟨h1, h2, h3⟩ := h
  refine ⟨?_, ?_, ?_⟩
  · apply DeathTeardownOrdered_concat h1
    have := h1 s.Executed (List.prefix_refl _)
    simp [List.count_singleton]
    omega
  · simp [OnDeathFinished, List.count_singleton] at h2 ⊢
    omega
  · simpa [OnDeathFinished, List.count_singleton] using h3

theorem LifecycleInv_DestroyDueToDeath {k : ℕ} {s : FLifecycleState}
    (h : LifecycleInv (k + 1) s) : LifecycleInv k (DestroyDueToDeath s) := by
  obtain ⟨h1, h2, h3⟩ := h
  have hE : (DestroyDueToDeath s).Executed =
      (s.Executed ++ [ELifecycleStep.DestroyDueToDeath]) ++ [ELifecycleStep.UninitAndDestroy] :=
    (UninitAndDestroy_Executed _).1
  have hP : (DestroyDueToDeath s).PendingDestroyDueToDeath = s.PendingDestroyDueToDeath :=
    (UninitAndDestroy_Executed _).2
  unfold LifecycleInv
  rw [hE, hP]
  refine ⟨?_, ?_, ?_⟩
  · apply DeathTeardownOrdered_concat
    · apply DeathTeardownOrdered_concat h1
      simp [List.count_singleton]
      omega
    · simp [List.count_singleton]
      omega
  · simp [List.count_singleton]
    omega
  · simp [List.count_singleton]
    omega

theorem LifecycleInv_Reset {s : FLifecycleState} (h : LifecycleInv 0 s) :
    LifecycleInv 0 (Reset s) := by
  obtain ⟨h1, h2, h3⟩ := h
  have hE : (Reset s).Executed =
      (s.Executed ++ [ELifecycleStep.Reset]) ++ [ELifecycleStep.UninitAndDestroy] :=
    (UninitAndDestroy_Executed _).1
  have hP : (Reset s).PendingDestroyDueToDeath = s.PendingDestroyDueToDeath :=
    (UninitAndDestroy_Executed _).2
  have h0 := h1 s.Executed (List.prefix_refl _)
  unfold LifecycleInv
  rw [hE, hP]
  refine ⟨?_, ?_, ?_⟩
  · apply DeathTeardownOrdered_concat
    · apply DeathTeardownOrdered_concat h1
      simpa [List.count_singleton] using h0
    · simpa [List.count_singleton] using h0
  · simpa [List.count_singleton] using h2
  · simp [List.count_singleton]
    omega

theorem LifecycleInv_iterate (k : ℕ) :
    ∀ s : FLifecycleState, LifecycleInv k s → LifecycleInv 0 (Nat.iterate DestroyDueToDeath k s) := by
  induction k with
  | zero => intro s h; exact h
  | succ k ih =>
    intro s h
    rw [Function.iterate_succ_apply]
    exact ih _ (LifecycleInv_DestroyDueToDeath h)

theorem LifecycleInv_NextTick {s : FLifecycleState} (h : LifecycleInv 0 s) :
    LifecycleInv 0 (NextTick s) := by
  unfold NextTick
  apply LifecycleInv_iterate
  obtain ⟨h1, h2, h3⟩ := h
  refine ⟨h1, ?_, h3⟩
  show s.Executed.count ELifecycleStep.DestroyDueToDeath + 0 + s.PendingDestroyDueToDeath
    = s.Executed.count ELifecycleStep.OnDeathFinished
  omega

theorem LifecycleInv_run (calls : List ELifecycleCall) :
    ∀ s : FLifecycleState, LifecycleInv 0 s → LifecycleInv 0 (lifecycleRun s calls) := by
  induction calls with
  | nil => intro s h; exact h
  | cons c cs ih =>
    intro s h
    show LifecycleInv 0 (lifecycleRun (lifecycleStep s c) cs)
    apply ih
    cases c
    · exact LifecycleInv_OnDeathStarted h
    · exact LifecycleInv_OnDeathFinished h
    · exact LifecycleInv_NextTick h
    · exact LifecycleInv_Reset h

/-- C6 (as stated) fails on a character that has just begun play: a lone
`OnDeathFinished` takes effect (it sets the teardown timer) although `OnDeathStarted`
never ran, and a lone `Reset` executes `UninitAndDestroy` although `OnDeathFinished`
never ran. -/
theorem lifecycle_not_guarded :
    ((lifecycleRun (FLifecycleState.BeginPlay ENetRole.ROLE_Authority true)
        [ELifecycleCall.OnDeathFinished]).PendingDestroyDueToDeath = 1 ∧
      ELifecycleStep.OnDeathStarted ∉
        (lifecycleRun (FLifecycleState.BeginPlay ENetRole.ROLE_Authority true)
          [ELifecycleCall.OnDeathFinished, ELifecycleCall.NextTick]).Executed ∧
      (lifecycleRun (FLifecycleState.BeginPlay ENetRole.ROLE_Authority true)
          [ELifecycleCall.OnDeathFinished, ELifecycleCall.NextTick]).bHiddenInGame = true) ∧
    (ELifecycleStep.UninitAndDestroy ∈
        (lifecycleRun (FLifecycleState.BeginPlay ENetRole.ROLE_Authority true)
          [ELifecycleCall.Reset]).Executed ∧
      ELifecycleStep.OnDeathFinished ∉
        (lifecycleRun (FLifecycleState.BeginPlay ENetRole.ROLE_Authority true)
          [ELifecycleCall.Reset]).Executed ∧
      (lifecycleRun (FLifecycleState.BeginPlay ENetRole.ROLE_Authority true)
          [ELifecycleCall.Reset]).bHiddenInGame = true) := by
  decide

/-- C6 (amended): over every sequence of the lifecycle entry points applied to a
character that has just begun play, `DestroyDueToDeath` runs only for a timer set by an
earlier `OnDeathFinished` (at every point of the execution record there are at most as
many `DestroyDueToDeath` runs as earlier `OnDeathFinished` runs; runs and pending timers
together equal the `OnDeathFinished` runs), and `UninitAndDestroy` runs exactly once per
`DestroyDueToDeath` run and once per `Reset`. -/
theorem lifecycle_teardown_order (LocalRole : ENetRole) (bAvatar : Bool)
    (calls : List ELifecycleCall) :
    DeathTeardownOrdered (lifecycleRun (FLifecycleState.BeginPlay LocalRole bAvatar) calls).Executed ∧
    (lifecycleRun (FLifecycleState.BeginPlay LocalRole bAvatar) calls).Executed.count
        ELifecycleStep.DestroyDueToDeath
      + (lifecycleRun (FLifecycleState.BeginPlay LocalRole bAvatar) calls).PendingDestroyDueToDeath
      = (lifecycleRun (FLifecycleState.BeginPlay LocalRole bAvatar) calls).Executed.count
        ELifecycleStep.OnDeathFinished ∧
    (lifecycleRun (FLifecycleState.BeginPlay LocalRole bAvatar) calls).Executed.count
        ELifecycleStep.UninitAndDestroy
      = (lifecycleRun (FLifecycleState.BeginPlay LocalRole bAvatar) calls).Executed.count
          ELifecycleStep.DestroyDueToDeath
        + (lifecycleRun (FLifecycleState.BeginPlay LocalRole bAvatar) calls).Executed.count
          ELifecycleStep.Reset := by
  have h0 : LifecycleInv 0 (FLifecycleState.BeginPlay LocalRole bAvatar) := by
    refine ⟨?_, rfl, rfl⟩
    intro p hp
    have : p = [] := List.prefix_nil.1 hp
    rw [this]
    rfl
  obtain ⟨h1, h2, h3⟩ := LifecycleInv_run calls _ h0
  exact ⟨h1, by simpa using h2, h3⟩

/-! ## Codec: `MaxAcceleration == 0` on the receiving side -/

/-- C11: for every code triple, `OnRep_ReplicatedAcceleration` run with `MaxAcceleration`
equal to 0 divides by no zero value (its only divisors are 255 and 127) and passes the
zero vector to `SetReplicatedAcceleration`. -/
theorem OnRep_ReplicatedAcceleration_zero_max (c : FLyraReplicatedAcceleration)
    (CurrentAcceleration : FVector) :
    decompressAcceleration 0 c = some ⟨0, 0, 0⟩ ∧
    OnRep_ReplicatedAcceleration (some ⟨0, CurrentAcceleration⟩) c = some (some ⟨0, 0, 0⟩) ∧
    (∀ m : ℝ, (decompressAcceleration m c).isSome) := by
  have h0 : decompressAcceleration 0 c = some ⟨0, 0, 0⟩ := by
    rw [decompressAcceleration_eq]
    simp
  refine ⟨h0, ?_, fun m => ?_⟩
  · show (decompressAcceleration 0 c).map some = _
    rw [h0]
    rfl
  · rw [decompressAcceleration_eq]
    rfl

/-! ## Possession symmetry -/

/-- The team id after `UnPossessed` is what the policy makes of the id held before. -/
theorem UnPossessed_MyTeamID (b : Bool) (D : FGenericTeamId → FGenericTeamId)
    (s : FTeamState) : (UnPossessed b D s).MyTeamID = D s.MyTeamID := by
  unfold UnPossessed
  rw [(ConditionalBroadcastTeamChanged_spec _ _ _).1]

/-- C12: for every prior team id and every controller, `PossessedBy` followed immediately
by `UnPossessed` leaves `MyTeamID` equal to the result of
`DetermineNewTeamAfterPossessionEnds` (applied to the id held while possessed), which by
default is `NoTeam`; so it is not the id of a controller on a team. -/
theorem possession_symmetry (b1 b2 : Bool) (D : FGenericTeamId → FGenericTeamId)
    (s : FTeamState) (C : AController) :
    (UnPossessed b2 D (PossessedBy b1 s C)).MyTeamID = D (PossessedBy b1 s C).MyTeamID ∧
    (UnPossessed b2 DetermineNewTeamAfterPossessionEnds (PossessedBy b1 s C)).MyTeamID
      = NoTeam ∧
    (∀ t, C.TeamAgent = some t → (PossessedBy b1 s C).MyTeamID = t) ∧
    (∀ t, C.TeamAgent = some t → t ≠ NoTeam →
      (UnPossessed b2 DetermineNewTeamAfterPossessionEnds (PossessedBy b1 s C)).MyTeamID
        ≠ t) := by
  have h2 : (UnPossessed b2 DetermineNewTeamAfterPossessionEnds (PossessedBy b1 s C)).MyTeamID
      = NoTeam := by
    rw [UnPossessed_MyTeamID]
    rfl
  refine ⟨UnPossessed_MyTeamID _ _ _, h2, ?_, ?_⟩
  · intro t ht
    unfold PossessedBy
    rw [(ConditionalBroadcastTeamChanged_spec _ _ _).1, ht]
  · intro t _ hne
    rw [h2]
    exact Ne.symm hne

/-! ## Receiver -/

/-- C13: for every received snapshot, when the world is playing a replay, or when the
local role is not SimulatedProxy, `FastSharedReplication_Implementation` returns the
character as it was: the stored timestamp, `ReplicatedMovementMode`, the two network
flags of the movement component, the replicated movement record,
`bProxyIsJumpForceApplied` and `bIsCrouched` are unchanged and no reaction is invoked. -/
theorem FastSharedReplication_Implementation_noop (c : ALyraCharacter)
    (S : FSharedRepMovement)
    (h : c.bIsPlayingReplay = true ∨ c.LocalRole ≠ ENetRole.ROLE_SimulatedProxy) :
    FastSharedReplication_Implementation c S = c ∧
    (FastSharedReplication_Implementation c S).Reactions = c.Reactions := by
  have key : FastSharedReplication_Implementation c S = c := by
    unfold FastSharedReplication_Implementation
    rcases h with h | h
    · rw [if_pos h]
    · by_cases hp : c.bIsPlayingReplay = true
      · rw [if_pos hp]
      · rw [if_neg hp, if_neg h]
  exact ⟨key, by rw [key]⟩

/-- C13 at the sample character on the authority, and on a proxy that plays a replay. -/
theorem FastSharedReplication_Implementation_noop_witness :
    ((sampleAuthority.bIsPlayingReplay = true ∨
        sampleAuthority.LocalRole ≠ ENetRole.ROLE_SimulatedProxy) ∧
      FastSharedReplication_Implementation sampleAuthority (sampleSnapshot 10)
        = sampleAuthority ∧
      (FastSharedReplication_Implementation sampleAuthority (sampleSnapshot 10)).Reactions
        = sampleAuthority.Reactions) ∧
    FastSharedReplication_Implementation { sampleProxy with bIsPlayingReplay := true }
      (sampleSnapshot 10) = { sampleProxy with bIsPlayingReplay := true } := by
  have hyp : sampleAuthority.bIsPlayingReplay = true ∨
      sampleAuthority.LocalRole ≠ ENetRole.ROLE_SimulatedProxy := Or.inr (by decide)
  exact ⟨⟨hyp, FastSharedReplication_Implementation_noop sampleAuthority (sampleSnapshot 10) hyp⟩,
    by decide⟩

/-- The receiver on a simulated proxy outside a replay: the fields after the call. -/
theorem FastSharedReplication_Implementation_proxy (c : ALyraCharacter)
    (S : FSharedRepMovement) (hp : c.bIsPlayingReplay = false)
    (hr : c.LocalRole = ENetRole.ROLE_SimulatedProxy) :
    (FastSharedReplication_Implementation c S).ReplicatedServerLastTransformUpdateTimeStamp
      = S.RepTimeStamp ∧
    (FastSharedReplication_Implementation c S).ReplicatedMovementMode = S.RepMovementMode ∧
    (FastSharedReplication_Implementation c S).ReplicatedMovement = S.RepMovement ∧
    (FastSharedReplication_Implementation c S).bProxyIsJumpForceApplied
      = S.bProxyIsJumpForceApplied ∧
    (FastSharedReplication_Implementation c S).bIsCrouched = S.bIsCrouched ∧
    (FastSharedReplication_Implementation c S).bIsPlayingReplay = false ∧
    (FastSharedReplication_Implementation c S).LocalRole = ENetRole.ROLE_SimulatedProxy := by
  unfold FastSharedReplication_Implementation
  simp only [hp, hr, Bool.false_eq_true, if_false, if_true]
  by_cases hm : c.ReplicatedMovementMode = S.RepMovementMode <;>
    by_cases hc : c.bIsCrouched = S.bIsCrouched <;>
    simp [hm, hc, hp, hr]

/-- C14: on a SimulatedProxy that is not playing a replay, for every prior state and
every snapshot `S`, after `FastSharedReplication_Implementation(S)` the stored timestamp,
`ReplicatedMovementMode`, the replicated movement record, `bProxyIsJumpForceApplied` and
`bIsCrouched` equal the values of `S`, whatever timestamp was held before; applying `A`
and then `B` leaves the values of `B`. -/
theorem FastSharedReplication_last_applied_wins (c : ALyraCharacter)
    (A B : FSharedRepMovement) (hp : c.bIsPlayingReplay = false)
    (hr : c.LocalRole = ENetRole.ROLE_SimulatedProxy) :
    ((FastSharedReplication_Implementation c A).ReplicatedServerLastTransformUpdateTimeStamp
        = A.RepTimeStamp ∧
      (FastSharedReplication_Implementation c A).ReplicatedMovementMode = A.RepMovementMode ∧
      (FastSharedReplication_Implementation c A).ReplicatedMovement = A.RepMovement ∧
      (FastSharedReplication_Implementation c A).bProxyIsJumpForceApplied
        = A.bProxyIsJumpForceApplied ∧
      (FastSharedReplication_Implementation c A).bIsCrouched = A.bIsCrouched) ∧
    ((FastSharedReplication_Implementation (FastSharedReplication_Implementation c A) B
        ).ReplicatedServerLastTransformUpdateTimeStamp = B.RepTimeStamp ∧
      (FastSharedReplication_Implementation (FastSharedReplication_Implementation c A) B
        ).ReplicatedMovementMode = B.RepMovementMode ∧
      (FastSharedReplication_Implementation (FastSharedReplication_Implementation c A) B
        ).ReplicatedMovement = B.RepMovement ∧
      (FastSharedReplication_Implementation (FastSharedReplication_Implementation c A) B
        ).bProxyIsJumpForceApplied = B.bProxyIsJumpForceApplied ∧
      (FastSharedReplication_Implementation (FastSharedReplication_Implementation c A) B
        ).bIsCrouched = B.bIsCrouched) := by
  obtain ⟨a1, a2, a3, a4, a5, a6, a7⟩ := FastSharedReplication_Implementation_proxy c A hp hr
  obtain ⟨b1, b2, b3, b4, b5, -, -⟩ :=
    FastSharedReplication_Implementation_proxy (FastSharedReplication_Implementation c A) B a6 a7
  exact ⟨⟨a1, a2, a3, a4, a5⟩, ⟨b1, b2, b3, b4, b5⟩⟩

/-- C14 at the sample proxy: a snapshot stamped 10 and then one stamped 5 are both
applied; the older stamp 5 replaces the newer one. -/
theorem FastSharedReplication_last_applied_wins_witness :
    (sampleProxy.bIsPlayingReplay = false ∧
      sampleProxy.LocalRole = ENetRole.ROLE_SimulatedProxy ∧
      (sampleSnapshot 5).RepTimeStamp < (sampleSnapshot 10).RepTimeStamp) ∧
    (((FastSharedReplication_Implementation sampleProxy (sampleSnapshot 10)
          ).ReplicatedServerLastTransformUpdateTimeStamp = (sampleSnapshot 10).RepTimeStamp ∧
        (FastSharedReplication_Implementation sampleProxy (sampleSnapshot 10)
          ).ReplicatedMovementMode = (sampleSnapshot 10).RepMovementMode ∧
        (FastSharedReplication_Implementation sampleProxy (sampleSnapshot 10)
          ).ReplicatedMovement = (sampleSnapshot 10).RepMovement ∧
        (FastSharedReplication_Implementation sampleProxy (sampleSnapshot 10)
          ).bProxyIsJumpForceApplied = (sampleSnapshot 10).bProxyIsJumpForceApplied ∧
        (FastSharedReplication_Implementation sampleProxy (sampleSnapshot 10)
          ).bIsCrouched = (sampleSnapshot 10).bIsCrouched) ∧
      ((FastSharedReplication_Implementation
          (FastSharedReplication_Implementation sampleProxy (sampleSnapshot 10))
          (sampleSnapshot 5)).ReplicatedServerLastTransformUpdateTimeStamp
          = (sampleSnapshot 5).RepTimeStamp ∧
        (FastSharedReplication_Implementation
          (FastSharedReplication_Implementation sampleProxy (sampleSnapshot 10))
          (sampleSnapshot 5)).ReplicatedMovementMode = (sampleSnapshot 5).RepMovementMode ∧
        (FastSharedReplication_Implementation
          (FastSharedReplication_Implementation sampleProxy (sampleSnapshot 10))
          (sampleSnapshot 5)).ReplicatedMovement = (sampleSnapshot 5).RepMovement ∧
        (FastSharedReplication_Implementation
          (FastSharedReplication_Implementation sampleProxy (sampleSnapshot 10))
          (sampleSnapshot 5)).bProxyIsJumpForceApplied
          = (sampleSnapshot 5).bProxyIsJumpForceApplied ∧
        (FastSharedReplication_Implementation
          (FastSharedReplication_Implementation sampleProxy (sampleSnapshot 10))
          (sampleSnapshot 5)).bIsCrouched = (sampleSnapshot 5).bIsCrouched)) ∧
    (FastSharedReplication_Implementation
      (FastSharedReplication_Implementation sampleProxy (sampleSnapshot 10))
      (sampleSnapshot 5)).ReplicatedServerLastTransformUpdateTimeStamp = 5 := by
  have hyp : sampleProxy.bIsPlayingReplay = false ∧
      sampleProxy.LocalRole = ENetRole.ROLE_SimulatedProxy := ⟨rfl, rfl⟩
  exact ⟨⟨hyp.1, hyp.2, by decide⟩,
    FastSharedReplication_last_applied_wins sampleProxy (sampleSnapshot 10) (sampleSnapshot 5)
      hyp.1 hyp.2, by decide⟩

/-! ## Wire format -/

/-- Saving with `NetSerialize`: the stream written and the value kept. -/
theorem NetSerialize_save (Base : FRepMovementSerializer) (S : FSharedRepMovement) :
    (S.NetSerialize Base FArchive.Writer).Ar.Stream
      = Base.Save S.RepMovement ++ sharedRepTail S ∧
    (S.NetSerialize Base FArchive.Writer).Value = S ∧
    (S.NetSerialize Base FArchive.Writer).Ar.bError = false ∧
    (S.NetSerialize Base FArchive.Writer).ReturnValue = true := by
  unfold FSharedRepMovement.NetSerialize FRepMovementSerializer.NetSerialize sharedRepTail
    FArchive.Writer
  by_cases ht : S.RepTimeStamp = 0
  · simp [ht, FArchive.SerializeByte, FArchive.SerializeFlag, FArchive.SerializeBits1]
    cases S
    simp_all
  · simp [ht, FArchive.SerializeByte, FArchive.SerializeFlag, FArchive.SerializeBits1,
      FArchive.SerializeFloat]

/-- Loading with `NetSerialize` what was written for `S`, into any value `R0`. -/
theorem NetSerialize_load (Base : FRepMovementSerializer) (hBase : Base.RoundTrips)
    (S R0 : FSharedRepMovement) (rest : List FArchiveItem) :
    (R0.NetSerialize Base
        (FArchive.Reader (Base.Save S.RepMovement ++ sharedRepTail S ++ rest))
      ).Value.RepMovementMode = S.RepMovementMode ∧
    (R0.NetSerialize Base
        (FArchive.Reader (Base.Save S.RepMovement ++ sharedRepTail S ++ rest))
      ).Value.bProxyIsJumpForceApplied = S.bProxyIsJumpForceApplied ∧
    (R0.NetSerialize Base
        (FArchive.Reader (Base.Save S.RepMovement ++ sharedRepTail S ++ rest))
      ).Value.bIsCrouched = S.bIsCrouched ∧
    (R0.NetSerialize Base
        (FArchive.Reader (Base.Save S.RepMovement ++ sharedRepTail S ++ rest))
      ).Value.RepTimeStamp = S.RepTimeStamp ∧
    (R0.NetSerialize Base
        (FArchive.Reader (Base.Save S.RepMovement ++ sharedRepTail S ++ rest))
      ).Ar.Stream = rest ∧
    (R0.NetSerialize Base
        (FArchive.Reader (Base.Save S.RepMovement ++ sharedRepTail S ++ rest))
      ).Ar.bError = false := by
  have hB := hBase S.RepMovement R0.RepMovement (sharedRepTail S ++ rest)
  unfold FSharedRepMovement.NetSerialize FRepMovementSerializer.NetSerialize FArchive.Reader
  simp only [if_true, List.append_assoc, hB]
  unfold sharedRepTail
  by_cases ht : S.RepTimeStamp = 0
  · simp [ht, FArchive.SerializeByte, FArchive.SerializeFlag, FArchive.SerializeBits1]
  · simp [ht, FArchive.SerializeByte, FArchive.SerializeFlag, FArchive.SerializeBits1,
      FArchive.SerializeFloat]

/-- The sample base serializer reads back what it wrote. -/
theorem sampleBaseSerializer_RoundTrips : sampleBaseSerializer.RoundTrips := by
  intro m m0 rest
  rfl

/-- C15: `NetSerialize` writes, in this order, the base movement fields, the mode byte,
the jump-force flag, the crouch flag, a one-bit has-timestamp flag that is 1 if and only
if the timestamp is non-zero, and then the timestamp only when that flag is 1; given that
the base movement serializer round-trips, loading with `NetSerialize` what it saved for
`S` (into any value, with anything following in the stream) yields the movement-mode
code, jump-force flag, crouch flag and timestamp of `S`, the timestamp being 0 when the
flag is 0, and consumes exactly what was saved. -/
theorem NetSerialize_roundtrip (Base : FRepMovementSerializer) (hBase : Base.RoundTrips)
    (S R0 : FSharedRepMovement) (rest : List FArchiveItem) :
    (S.NetSerialize Base FArchive.Writer).Ar.Stream =
      Base.Save S.RepMovement ++
        ([FArchiveItem.Byte S.RepMovementMode, FArchiveItem.Flag S.bProxyIsJumpForceApplied,
          FArchiveItem.Flag S.bIsCrouched, FArchiveItem.Bit (decide (S.RepTimeStamp ≠ 0))]
          ++ (if S.RepTimeStamp ≠ 0 then [FArchiveItem.Float S.RepTimeStamp] else [])) ∧
    (S.NetSerialize Base FArchive.Writer).ReturnValue = true ∧
    (R0.NetSerialize Base (FArchive.Reader
        ((S.NetSerialize Base FArchive.Writer).Ar.Stream ++ rest))).Value.RepMovementMode
      = S.RepMovementMode ∧
    (R0.NetSerialize Base (FArchive.Reader
        ((S.NetSerialize Base FArchive.Writer).Ar.Stream ++ rest))
      ).Value.bProxyIsJumpForceApplied = S.bProxyIsJumpForceApplied ∧
    (R0.NetSerialize Base (FArchive.Reader
        ((S.NetSerialize Base FArchive.Writer).Ar.Stream ++ rest))).Value.bIsCrouched
      = S.bIsCrouched ∧
    (R0.NetSerialize Base (FArchive.Reader
        ((S.NetSerialize Base FArchive.Writer).Ar.Stream ++ rest))).Value.RepTimeStamp
      = S.RepTimeStamp ∧
    (R0.NetSerialize Base (FArchive.Reader
        ((S.NetSerialize Base FArchive.Writer).Ar.Stream ++ rest))).Ar.Stream = rest ∧
    (R0.NetSerialize Base (FArchive.Reader
        ((S.NetSerialize Base FArchive.Writer).Ar.Stream ++ rest))).Ar.bError = false := by
  obtain ⟨h1, -, -, h4⟩ := NetSerialize_save Base S
  obtain ⟨l1, l2, l3, l4, l5, l6⟩ := NetSerialize_load Base hBase S R0 rest
  rw [h1]
  exact ⟨rfl, h4, l1, l2, l3, l4, l5, l6⟩

/-- C15 with the sample base serializer: the sample snapshot stamped 10 saved and loaded
into a fresh value, and the unstamped one, whose stream ends with the flag bit 0. -/
theorem NetSerialize_roundtrip_witness :
    sampleBaseSerializer.RoundTrips ∧
    ((sampleSnapshot 10).NetSerialize sampleBaseSerializer FArchive.Writer).Ar.Stream =
      sampleBaseSerializer.Save (sampleSnapshot 10).RepMovement ++
        [FArchiveItem.Byte 1, FArchiveItem.Flag false, FArchiveItem.Flag false,
          FArchiveItem.Bit true, FArchiveItem.Float 10] ∧
    ((sampleSnapshot 0).NetSerialize sampleBaseSerializer FArchive.Writer).Ar.Stream =
      sampleBaseSerializer.Save (sampleSnapshot 0).RepMovement ++
        [FArchiveItem.Byte 1, FArchiveItem.Flag false, FArchiveItem.Flag false,
          FArchiveItem.Bit false] ∧
    (FSharedRepMovement.ctor.NetSerialize sampleBaseSerializer (FArchive.Reader
        (((sampleSnapshot 10).NetSerialize sampleBaseSerializer FArchive.Writer).Ar.Stream
          ++ []))).Value.RepTimeStamp = (sampleSnapshot 10).RepTimeStamp ∧
    (FSharedRepMovement.ctor.NetSerialize sampleBaseSerializer (FArchive.Reader
        (((sampleSnapshot 10).NetSerialize sampleBaseSerializer FArchive.Writer).Ar.Stream
          ++ []))).Value = sampleSnapshot 10 := by
  refine ⟨sampleBaseSerializer_RoundTrips, by decide, by decide, ?_, by decide⟩
  exact (NetSerialize_roundtrip sampleBaseSerializer sampleBaseSerializer_RoundTrips
    (sampleSnapshot 10) FSharedRepMovement.ctor []).2.2.2.2.2.1

/-! ## Replication dispatcher: sending on difference -/

/-- C16: on the authority with a root component (snapshot construction yields `S`), for
every value of `LastSharedReplication`, `UpdateSharedReplication` returns true and sends
exactly one message, `S`, if `S` is not `Equals` to `LastSharedReplication`, and none if
it is; when it sends, `LastSharedReplication` afterwards is `S` and
`ReplicatedMovementMode` is the mode code of `S`; when it does not send, both are
unchanged. -/
theorem UpdateSharedReplication_sends_on_difference (c : ALyraCharacter)
    (S : FSharedRepMovement) (hr : c.LocalRole = ENetRole.ROLE_Authority)
    (hS : FSharedRepMovement.ctor.FillForCharacter c = some S) :
    (UpdateSharedReplication c).1 = true ∧
    (S.Equals c.LastSharedReplication c = false →
      (UpdateSharedReplication c).2.Sent = c.Sent ++ [S] ∧
      (UpdateSharedReplication c).2.LastSharedReplication = S ∧
      (UpdateSharedReplication c).2.ReplicatedMovementMode = S.RepMovementMode) ∧
    (S.Equals c.LastSharedReplication c = true →
      (UpdateSharedReplication c).2.Sent = c.Sent ∧
      (UpdateSharedReplication c).2.LastSharedReplication = c.LastSharedReplication ∧
      (UpdateSharedReplication c).2.ReplicatedMovementMode = c.ReplicatedMovementMode) := by
  refine ⟨?_, ?_, ?_⟩
  · cases hE : S.Equals c.LastSharedReplication c
    · rw [UpdateSharedReplication_send c S hr hS hE]
    · rw [UpdateSharedReplication_suppress c S hr hS hE]
  · intro hE
    rw [UpdateSharedReplication_send c S hr hS hE]
    exact ⟨rfl, rfl, rfl⟩
  · intro hE
    rw [UpdateSharedReplication_suppress c S hr hS hE]
    exact ⟨rfl, rfl, rfl⟩

/-- C16 at the sample character: the first dispatch sends the snapshot and stores it;
a dispatch right after it sends nothing. -/
theorem UpdateSharedReplication_sends_on_difference_witness :
    (sampleAuthority.LocalRole = ENetRole.ROLE_Authority ∧
      FSharedRepMovement.ctor.FillForCharacter sampleAuthority = some (sampleSnapshot 10)) ∧
    ((UpdateSharedReplication sampleAuthority).1 = true ∧
      ((sampleSnapshot 10).Equals sampleAuthority.LastSharedReplication sampleAuthority = false →
        (UpdateSharedReplication sampleAuthority).2.Sent
          = sampleAuthority.Sent ++ [sampleSnapshot 10] ∧
        (UpdateSharedReplication sampleAuthority).2.LastSharedReplication = sampleSnapshot 10 ∧
        (UpdateSharedReplication sampleAuthority).2.ReplicatedMovementMode
          = (sampleSnapshot 10).RepMovementMode) ∧
      ((sampleSnapshot 10).Equals sampleAuthority.LastSharedReplication sampleAuthority = true →
        (UpdateSharedReplication sampleAuthority).2.Sent = sampleAuthority.Sent ∧
        (UpdateSharedReplication sampleAuthority).2.LastSharedReplication
          = sampleAuthority.LastSharedReplication ∧
        (UpdateSharedReplication sampleAuthority).2.ReplicatedMovementMode
          = sampleAuthority.ReplicatedMovementMode)) ∧
    (sampleSnapshot 10).Equals sampleAuthority.LastSharedReplication sampleAuthority = false ∧
    (UpdateSharedReplication sampleAuthority).2.Sent = [sampleSnapshot 10] ∧
    (UpdateSharedReplication (UpdateSharedReplication sampleAuthority).2).2.Sent
      = [sampleSnapshot 10] := by
  have hyp : sampleAuthority.LocalRole = ENetRole.ROLE_Authority ∧
      FSharedRepMovement.ctor.FillForCharacter sampleAuthority = some (sampleSnapshot 10) :=
    ⟨rfl, by decide⟩
  exact ⟨hyp, UpdateSharedReplication_sends_on_difference sampleAuthority (sampleSnapshot 10)
    hyp.1 hyp.2, by decide, by decide, by decide⟩

end Lyra
